import Mathlib

/-!
Verification development for the voxel lighting core of the repository
(`src/server/world/lights.rs`): a shallow embedding of `Lights::flood_light`,
`Lights::remove_light` and `Lights::propagate`, together with theorems about
the claims of the specification.

Machine integers of the source (`u32` light levels, `i32` coordinates) are
modelled as `Nat` and `Int`; the single subtraction that can wrap
(`max_light_level - 1` in `propagate`) is modelled with explicit `u32`
wrapping, and the subtraction `level - 1` in `flood_light` is only reached
behind the source's `level == 0` early exit, where `Nat` and `u32`
subtraction agree.

Loops are modelled with an explicit fuel argument: the returned `Bool` is
`true` exactly when the loop reached its own exit before the fuel ran out,
so a run with the flag `true` is a faithful image of a complete execution of
the Rust loop.  Rust `Vec` indexing of the sun mask panics when out of
bounds; mask reads and writes therefore return `Option`, and a `none`
outcome of the sweep or of `propagate` is a panic of the source.
-/

namespace Voxelize

/-- Light channel enumeration (`LightColor` in `utils/light_utils.rs`):
sunlight or one of the three torch colors. -/
inductive LightColor where
  | Sunlight
  | Red
  | Green
  | Blue
deriving DecidableEq, Repr

/-- Block descriptor fetched from the registry (`world/block.rs`); only the
fields read by the lighting core are modelled. -/
structure Block where
  is_transparent : Bool
  is_light : Bool
  red_light_level : Nat
  green_light_level : Nat
  blue_light_level : Nat
deriving DecidableEq, Repr

/-- Registry contract consumed by the core: block id to block descriptor. -/
structure Registry where
  get_block_by_id : Nat → Block

/-- World configuration fields read by `lights.rs`. -/
structure WorldConfig where
  max_height : Nat
  max_light_level : Nat
  chunk_size : Nat
  min_chunk : Int × Int
  max_chunk : Int × Int

/-- Voxel access (the `VoxelAccess` trait object): block ids, the sun
channel, the torch channels, and chunk presence for `get_lights`.  Light
setters mutate only the light fields; the block data is read-only to the
lighting core. -/
structure Space where
  get_voxel : Int → Int → Int → Nat
  sun : Int → Int → Int → Nat
  torch : LightColor → Int → Int → Int → Nat
  hasChunk : Int → Int → Bool

/-- Read the sun channel (`get_sunlight`). -/
def Space.get_sunlight (s : Space) (x y z : Int) : Nat := s.sun x y z

/-- Write the sun channel (`set_sunlight`). -/
def Space.set_sunlight (s : Space) (x y z : Int) (level : Nat) : Space :=
  { s with sun := fun a b c => if a = x ∧ b = y ∧ c = z then level else s.sun a b c }

/-- Read a torch channel (`get_torch_light`). -/
def Space.get_torch_light (s : Space) (x y z : Int) (color : LightColor) : Nat :=
  s.torch color x y z

/-- Write a torch channel (`set_torch_light`). -/
def Space.set_torch_light (s : Space) (x y z : Int) (level : Nat) (color : LightColor) :
    Space :=
  { s with
    torch := fun col a b c =>
      if col = color ∧ a = x ∧ b = y ∧ c = z then level else s.torch col a b c }

/-- The level of channel `c` at a cell: the sun field for `Sunlight` and the
torch field otherwise, matching the `is_sunlight` branches of the source. -/
def Space.lightAt (s : Space) (c : LightColor) (x y z : Int) : Nat :=
  if c = LightColor.Sunlight then s.sun x y z else s.torch c x y z

/-- Read the light plane of a chunk (`get_lights`): `none` when the chunk is
not held by the access, in which case `propagate`'s final `unwrap` panics. -/
def Space.get_lights (s : Space) (cx cz : Int) :
    Option (LightColor → Int → Int → Int → Nat) :=
  if s.hasChunk cx cz then some (fun c x y z => s.lightAt c x y z) else none

/-- Modelled from the spec: `ChunkUtils::map_voxel_to_chunk` lives in
`utils/chunk_utils.rs`, which is not among the sources at hand.  Per the
spec (section 3) the grid is partitioned laterally into fixed-size square
chunks of side `chunk_size`, so a voxel's chunk indices are the floor
divisions of its lateral coordinates by `chunk_size`; the `y` coordinate is
ignored. -/
def map_voxel_to_chunk (vx : Int) (_vy : Int) (vz : Int) (chunk_size : Nat) : Int × Int :=
  (Int.fdiv vx (chunk_size : Int), Int.fdiv vz (chunk_size : Int))

/-- The six axial neighbor offsets, `VOXEL_NEIGHBORS` (lines 13 to 20). -/
def VOXEL_NEIGHBORS : List (Int × Int × Int) :=
  [(1, 0, 0), (-1, 0, 0), (0, 0, 1), (0, 0, -1), (0, 1, 0), (0, -1, 0)]

/-- Node of a light propagation queue (`LightNode`). -/
structure LightNode where
  voxel : Int × Int × Int
  level : Nat
deriving DecidableEq, Repr

/-- The chunk-rectangle and optional bounding-region rejection test of
`flood_light` (lines 78 to 98): the neighbor is rejected when its chunk lies
outside the closed rectangle `min_chunk ..= max_chunk`, or, when a bounding
region was supplied, when its lateral coordinates fall outside
`[mn.x, mn.x + shape.x) x [mn.z, mn.z + shape.z)`. -/
def chunk_region_reject (config : WorldConfig) (mn : Option (Int × Int × Int))
    (shape : Option (Nat × Nat × Nat)) (nvx nvy nvz : Int) : Bool :=
  let nc := map_voxel_to_chunk nvx nvy nvz config.chunk_size
  decide (nc.1 < config.min_chunk.1) || decide (nc.2 < config.min_chunk.2) ||
    decide (config.max_chunk.1 < nc.1) || decide (config.max_chunk.2 < nc.2) ||
    (match mn with
     | none => false
     | some m =>
       decide (nvx < m.1) || decide (nvz < m.2.2) ||
         (match shape with
          | none => false
          | some sh =>
            decide (m.1 + (sh.1 : Int) ≤ nvx) || decide (m.2.2 + (sh.2.2 : Int) ≤ nvz)))

/-- The channel-dispatched light read used throughout `lights.rs`:
`get_sunlight` when the flooded color is sunlight, `get_torch_light`
otherwise (the `is_sunlight` conditionals at lines 105 to 109, 146 to 150
and 174 to 178). -/
def flood_read (s : Space) (color : LightColor) (x y z : Int) : Nat :=
  if color = LightColor.Sunlight then s.get_sunlight x y z
  else s.get_torch_light x y z color

/-- The channel-dispatched light write used throughout `lights.rs`:
`set_sunlight` when the flooded color is sunlight, `set_torch_light`
otherwise (the `is_sunlight` conditionals at lines 114 to 118, 153 to 157
and 196 to 200). -/
def flood_write (s : Space) (color : LightColor) (x y z : Int) (l : Nat) : Space :=
  if color = LightColor.Sunlight then s.set_sunlight x y z l
  else s.set_torch_light x y z l color

/-- Processing of one neighbor offset inside the loop body of `flood_light`
(lines 68 to 124): height check, chunk and region checks, the uniform
decrement `next_level = level - 1`, the transparency and
`current >= next_level` guard, and the write-and-push. -/
def flood_neighbor (registry : Registry) (config : WorldConfig) (color : LightColor)
    (mn : Option (Int × Int × Int)) (shape : Option (Nat × Nat × Nat))
    (vx vy vz : Int) (level : Nat)
    (acc : Space × List LightNode) (off : Int × Int × Int) : Space × List LightNode :=
  let space := acc.1
  let queue := acc.2
  let nvy := vy + off.2.1
  if nvy < 0 ∨ (config.max_height : Int) ≤ nvy then acc
  else
    let nvx := vx + off.1
    let nvz := vz + off.2.2
    if chunk_region_reject config mn shape nvx nvy nvz then acc
    else
      let next_level := level - 1
      let block_type := registry.get_block_by_id (space.get_voxel nvx nvy nvz)
      let current := flood_read space color nvx nvy nvz
      if ¬ block_type.is_transparent = true ∨ next_level ≤ current then acc
      else
        (flood_write space color nvx nvy nvz next_level,
         queue ++ [⟨(nvx, nvy, nvz), next_level⟩])

/-- The `while` loop of `flood_light` (lines 60 to 125), with fuel: pop the
front node; a zero-level node `break`s out of the whole loop; otherwise fold
the neighbor processing over the six offsets and continue.  The boolean is
`false` exactly when the fuel ran out before the loop finished. -/
def flood_loop (registry : Registry) (config : WorldConfig) (color : LightColor)
    (mn : Option (Int × Int × Int)) (shape : Option (Nat × Nat × Nat)) :
    Nat → Space → List LightNode → Space × Bool
  | 0, space, _ => (space, false)
  | _ + 1, space, [] => (space, true)
  | fuel + 1, space, node :: rest =>
    if node.level = 0 then (space, true)
    else
      let step := VOXEL_NEIGHBORS.foldl
        (flood_neighbor registry config color mn shape
          node.voxel.1 node.voxel.2.1 node.voxel.2.2 node.level)
        (space, rest)
      flood_loop registry config color mn shape fuel step.1 step.2

/-- Entry point `Lights::flood_light` (lines 35 to 126). -/
def flood_light (fuel : Nat) (space : Space) (queue : List LightNode) (color : LightColor)
    (registry : Registry) (config : WorldConfig) (mn : Option (Int × Int × Int))
    (shape : Option (Nat × Nat × Nat)) : Space × Bool :=
  flood_loop registry config color mn shape fuel space queue

/-- Processing of one neighbor offset inside the darkening loop of
`remove_light` (lines 163 to 207): height check, skip dark neighbors, darken
descendants (strictly smaller level, or the sun-downward exemption at the
maximum level), collect survivors onto the refill queue. -/
def remove_neighbor (config : WorldConfig) (color : LightColor)
    (vx vy vz : Int) (level : Nat)
    (acc : Space × List LightNode × List LightNode) (off : Int × Int × Int) :
    Space × List LightNode × List LightNode :=
  let space := acc.1
  let queue := acc.2.1
  let fill := acc.2.2
  let nvy := vy + off.2.1
  if nvy < 0 ∨ (config.max_height : Int) ≤ nvy then acc
  else
    let nvx := vx + off.1
    let nvz := vz + off.2.2
    let nl := flood_read space color nvx nvy nvz
    if nl = 0 then acc
    else if nl < level ∨ (color = LightColor.Sunlight ∧ off.2.1 = -1 ∧
        level = config.max_light_level ∧ nl = config.max_light_level) then
      (flood_write space color nvx nvy nvz 0, queue ++ [⟨(nvx, nvy, nvz), nl⟩], fill)
    else if level ≤ nl ∧ (¬ color = LightColor.Sunlight ∨ ¬ off.2.1 = -1 ∨ level < nl) then
      (space, queue, fill ++ [⟨(nvx, nvy, nvz), nl⟩])
    else acc

/-- The darkening `while` loop of `remove_light` (lines 159 to 208), with
fuel; returns the final space, the accumulated refill queue, and whether the
loop drained before the fuel ran out. -/
def remove_loop (config : WorldConfig) (color : LightColor) :
    Nat → Space → List LightNode → List LightNode → Space × List LightNode × Bool
  | 0, space, _, fill => (space, fill, false)
  | _ + 1, space, [], fill => (space, fill, true)
  | fuel + 1, space, node :: rest, fill =>
    let step := VOXEL_NEIGHBORS.foldl
      (remove_neighbor config color node.voxel.1 node.voxel.2.1 node.voxel.2.2 node.level)
      (space, rest, fill)
    remove_loop config color fuel step.1 step.2.1 step.2.2

/-- Entry point `Lights::remove_light` (lines 128 to 211): read the level at
the target, zero the target, run the darkening loop seeded with the target,
then flood the refill queue with no bounding region (`min = None`,
`shape = None`, line 210). -/
def remove_light (fuel1 fuel2 : Nat) (space : Space) (voxel : Int × Int × Int)
    (color : LightColor) (config : WorldConfig) (registry : Registry) : Space × Bool :=
  let l0 := flood_read space color voxel.1 voxel.2.1 voxel.2.2
  let space0 := flood_write space color voxel.1 voxel.2.1 voxel.2.2 0
  let step := remove_loop config color fuel1 space0 [⟨voxel, l0⟩] []
  let flood := flood_light fuel2 step.1 step.2.1 color registry config none none
  (flood.1, step.2.2 && flood.2)

/-- The mask index expression of `propagate`, `(x + z * shape.2) as usize`
(lines 249, 265, 267, 269, 271): row-major over `x` with stride `shape.2`. -/
def mask_index (x z s2 : Nat) : Nat := x + z * s2

/-- One read of the sun mask, `mask[i]`; a Rust `Vec` index out of bounds
panics, modelled as `none`. -/
def mask_get (mask : List Nat) (i : Nat) : Option Nat := mask.get? i

/-- One write of the sun mask, `mask[i] = v`, with the same panic on an
out-of-bounds index. -/
def mask_set (mask : List Nat) (i : Nat) (v : Nat) : Option (List Nat) :=
  if i < mask.length then some (mask.set i v) else none

/-- Wrapping `u32` subtraction by one, for `max_light_level - 1` in the
unlit-side seeding of `propagate` (lines 277 and 280), the one subtraction
of the core that the source does not guard against underflow. -/
def u32_sub_one (n : Nat) : Nat := if n = 0 then 4294967295 else n - 1

/-- Short-circuiting disjunction over possibly-panicking operands, the
image of Rust's `||` between `Vec`-indexing comparisons: when the left
operand is `true` the right one is never evaluated. -/
def orM (a : Option Bool) (b : Unit → Option Bool) : Option Bool :=
  a.bind (fun va => if va then some true else b ())

/-- Working state of `propagate`'s top-down sweep: the sun mask and the four
seed queues, together with the voxel access being mutated. -/
structure SweepState where
  mask : List Nat
  space : Space
  red_queue : List LightNode
  green_queue : List LightNode
  blue_queue : List LightNode
  sun_queue : List LightNode

/-- The lateral seeding condition of `propagate` (lines 265 to 272): some
lateral neighbor of `(x, z)` inside the region has a mask entry equal to
`max_light_level`.  Each mask read is guarded by a bounds comparison that
short-circuits, exactly as in the source. -/
def seed_cond (mask : List Nat) (maxL : Nat) (s0 s2 x z : Nat) : Option Bool :=
  orM (if 0 < x then
        (mask_get mask (mask_index (x - 1) z s2)).map (fun v => decide (v = maxL))
      else some false)
    (fun _ => orM (if x < s0 - 1 then
          (mask_get mask (mask_index (x + 1) z s2)).map (fun v => decide (v = maxL))
        else some false)
      (fun _ => orM (if 0 < z then
            (mask_get mask (mask_index x (z - 1) s2)).map (fun v => decide (v = maxL))
          else some false)
        (fun _ => if z < s2 - 1 then
            (mask_get mask (mask_index x (z + 1) s2)).map (fun v => decide (v = maxL))
          else some false)))

/-- The transparent branch of the sweep body (lines 261 to 284): write the
mask value to the cell's sun channel; when the mask is zero and a lateral
mask neighbor carries `max_light_level`, overwrite with
`max_light_level - 1` and enqueue the cell as a sun seed. -/
def sweep_transparent (maxL : Nat) (s0 s2 x z : Nat) (wx y wz : Int)
    (st : SweepState) : Option SweepState :=
  (mask_get st.mask (mask_index x z s2)).bind (fun mv =>
    let sp1 := st.space.set_sunlight wx y wz mv
    if mv = 0 then
      (seed_cond st.mask maxL s0 s2 x z).map (fun seed =>
        if seed then
          { st with
            space := sp1.set_sunlight wx y wz (u32_sub_one maxL),
            sun_queue := st.sun_queue ++ [⟨(wx, y, wz), u32_sub_one maxL⟩] }
        else { st with space := sp1 })
    else some { st with space := sp1 })

/-- The emissive branch of the sweep body (lines 289 to 311): for each color
channel whose level is positive, write that level at the cell and enqueue
the cell onto the channel's queue.  The source guards this only on
`is_light`, not on transparency. -/
def sweep_emissive (b : Block) (wx y wz : Int) (st1 : SweepState) : SweepState :=
  if b.is_light then
    let st2 :=
      if 0 < b.red_light_level then
        { st1 with
          space := st1.space.set_torch_light wx y wz b.red_light_level LightColor.Red,
          red_queue := st1.red_queue ++ [⟨(wx, y, wz), b.red_light_level⟩] }
      else st1
    let st3 :=
      if 0 < b.green_light_level then
        { st2 with
          space := st2.space.set_torch_light wx y wz b.green_light_level LightColor.Green,
          green_queue := st2.green_queue ++ [⟨(wx, y, wz), b.green_light_level⟩] }
      else st2
    if 0 < b.blue_light_level then
      { st3 with
        space := st3.space.set_torch_light wx y wz b.blue_light_level LightColor.Blue,
        blue_queue := st3.blue_queue ++ [⟨(wx, y, wz), b.blue_light_level⟩] }
    else st3
  else st1

/-- The body of `propagate`'s top-down sweep for one region cell `(x, z)` at
height `y` (lines 249 to 311): transparent cells take the mask value as sun
light and, when in shadow next to a sunlit column, are seeded at
`max_light_level - 1`; opaque cells zero their mask column; emissive blocks
seed each positive color channel. -/
def sweep_cell (registry : Registry) (config : WorldConfig) (sx sz : Int)
    (s0 s2 : Nat) (y : Int) (x z : Nat) (st : SweepState) : Option SweepState :=
  let wx := (x : Int) + sx
  let wz := (z : Int) + sz
  let b := registry.get_block_by_id (st.space.get_voxel wx y wz)
  (if b.is_transparent then
     sweep_transparent config.max_light_level s0 s2 x z wx y wz st
   else
     (mask_set st.mask (mask_index x z s2) 0).map (fun m2 => { st with mask := m2 })).map
    (sweep_emissive b wx y wz)

/-- True when the block injects light on the given channel in the emissive
branch of the sweep: it is flagged `is_light` and its level for that color
channel is positive.  The sun channel is never injected this way. -/
def emits (b : Block) (c : LightColor) : Bool :=
  b.is_light &&
    (match c with
     | LightColor.Sunlight => false
     | LightColor.Red => decide (0 < b.red_light_level)
     | LightColor.Green => decide (0 < b.green_light_level)
     | LightColor.Blue => decide (0 < b.blue_light_level))

/-- The inner `z` loop of the sweep (line 248), over the listed values. -/
def sweep_zs (registry : Registry) (config : WorldConfig) (sx sz : Int) (s0 s2 : Nat)
    (y : Int) (x : Nat) : List Nat → SweepState → Option SweepState
  | [], st => some st
  | z :: zs, st =>
    (sweep_cell registry config sx sz s0 s2 y x z st).bind
      (sweep_zs registry config sx sz s0 s2 y x zs)

/-- The middle `x` loop of the sweep (line 247), over the listed values. -/
def sweep_xs (registry : Registry) (config : WorldConfig) (sx sz : Int) (s0 s2 : Nat)
    (y : Int) : List Nat → SweepState → Option SweepState
  | [], st => some st
  | x :: xs, st =>
    (sweep_zs registry config sx sz s0 s2 y x (List.range s2) st).bind
      (sweep_xs registry config sx sz s0 s2 y xs)

/-- The outer descending `y` loop of the sweep (line 246), over the listed
rows. -/
def sweep_rows (registry : Registry) (config : WorldConfig) (sx sz : Int) (s0 s2 : Nat) :
    List Int → SweepState → Option SweepState
  | [], st => some st
  | y :: ys, st =>
    (sweep_xs registry config sx sz s0 s2 y (List.range s0) st).bind
      (sweep_rows registry config sx sz s0 s2 ys)

/-- The rows visited by the sweep: `(0..max_height).rev()`. -/
def sweep_row_list (max_height : Nat) : List Int :=
  ((List.range max_height).reverse).map (fun (n : Nat) => (n : Int))

/-- The whole sun-seeding sweep of `propagate` (lines 241 to 314), starting
from the mask filled with `max_light_level` and empty queues. -/
def propagate_sweep (space : Space) (mn : Int × Int × Int) (shape : Nat × Nat × Nat)
    (registry : Registry) (config : WorldConfig) : Option SweepState :=
  sweep_rows registry config mn.1 mn.2.2 shape.1 shape.2.2
    (sweep_row_list config.max_height)
    ⟨List.replicate (shape.1 * shape.2.2) config.max_light_level, space, [], [], [], []⟩

/-- One conditional flood pass of `propagate` (lines 318 to 364): a
non-empty queue is flooded over the current space with the bounding region
`(min, shape)`; an empty queue leaves the space alone.  The boolean carries
the accumulated fuel-completion flag. -/
def flood_stage (fuel : Nat) (registry : Registry) (config : WorldConfig)
    (mn : Int × Int × Int) (shape : Nat × Nat × Nat) (color : LightColor)
    (queue : List LightNode) (prev : Space × Bool) : Space × Bool :=
  if queue.isEmpty then prev
  else
    let t := flood_light fuel prev.1 queue color registry config (some mn) (some shape)
    (t.1, prev.2 && t.2)

/-- The sweep followed by the four per-channel flood passes of `propagate`
(lines 318 to 364), in the order red, green, blue, sun. -/
def propagate_floods (fuel : Nat) (space : Space) (mn : Int × Int × Int)
    (shape : Nat × Nat × Nat) (registry : Registry) (config : WorldConfig) :
    Option (Space × Bool) :=
  (propagate_sweep space mn shape registry config).map (fun st =>
    flood_stage fuel registry config mn shape LightColor.Sunlight st.sun_queue
      (flood_stage fuel registry config mn shape LightColor.Blue st.blue_queue
        (flood_stage fuel registry config mn shape LightColor.Green st.green_queue
          (flood_stage fuel registry config mn shape LightColor.Red st.red_queue
            (st.space, true)))))

/-- Entry point `Lights::propagate` (lines 214 to 367).  The result carries
the light view of the center chunk, the final space, and the fuel-completion
flag; `none` is a panic of the source: either an out-of-bounds mask access
during the sweep, or `get_lights(center).unwrap()` on a missing center chunk
at line 366. -/
def propagate (fuel : Nat) (space : Space) (mn : Int × Int × Int) (center : Int × Int)
    (shape : Nat × Nat × Nat) (registry : Registry) (config : WorldConfig) :
    Option ((LightColor → Int → Int → Int → Nat) × Space × Bool) :=
  (propagate_floods fuel space mn shape registry config).bind (fun sb =>
    (sb.1.get_lights center.1 center.2).map (fun lv => (lv, sb.1, sb.2)))

/-! Concrete blocks, registries, configurations and spaces used to settle
claims on explicit inputs. -/

/-- A transparent, non-emissive block (air). -/
def air : Block := ⟨true, false, 0, 0, 0⟩

/-- An opaque, non-emissive block (stone). -/
def stone : Block := ⟨false, false, 0, 0, 0⟩

/-- An opaque block that is nevertheless flagged as a light source with red
level 5. -/
def stoneLamp : Block := ⟨false, true, 5, 0, 0⟩

/-- Registry mapping every id to air. -/
def regAir : Registry := ⟨fun _ => air⟩

/-- Registry mapping id 1 to the opaque red lamp, everything else to air. -/
def regLamp : Registry := ⟨fun i => if i = 1 then stoneLamp else air⟩

/-- Registry mapping id 1 to stone, everything else to air. -/
def regStone : Registry := ⟨fun i => if i = 1 then stone else air⟩

/-- Height 1, light cap 15, one chunk rectangle around the origin. -/
def cfgA : WorldConfig := ⟨1, 15, 16, (-1, -1), (1, 1)⟩

/-- Height 1, light cap 3. -/
def cfgB : WorldConfig := ⟨1, 3, 16, (-1, -1), (1, 1)⟩

/-- Height 2, light cap 3. -/
def cfgC : WorldConfig := ⟨2, 3, 16, (-1, -1), (1, 1)⟩

/-- Height 1, light cap 0, for the `max_light_level - 1` underflow. -/
def cfgD : WorldConfig := ⟨1, 0, 16, (-1, -1), (1, 1)⟩

/-- The all-air, all-dark space over present chunks. -/
def spaceZero : Space := ⟨fun _ _ _ => 0, fun _ _ _ => 0, fun _ _ _ _ => 0, fun _ _ => true⟩

/-- A space whose single non-air voxel at the origin is block id 1, with a
stale initial sun level 3 recorded there. -/
def spaceB : Space :=
  ⟨fun x y z => if x = 0 ∧ y = 0 ∧ z = 0 then 1 else 0,
   fun x y z => if x = 0 ∧ y = 0 ∧ z = 0 then 3 else 0,
   fun _ _ _ _ => 0, fun _ _ => true⟩

/-- A dark space whose single non-air voxel is block id 1 at (0, 1, 1). -/
def spaceC : Space :=
  ⟨fun x y z => if x = 0 ∧ y = 1 ∧ z = 1 then 1 else 0,
   fun _ _ _ => 0, fun _ _ _ _ => 0, fun _ _ => true⟩

/-- An all-air space holding the steady red light field of two sources of
level 3, one at the origin and one at (2, 0, 0), in the plane y = 0. -/
def spaceE : Space :=
  ⟨fun _ _ _ => 0, fun _ _ _ => 0,
   fun c x _ z =>
     if c = LightColor.Red then
       max (3 - (x.natAbs + z.natAbs)) (3 - ((x - 2).natAbs + z.natAbs))
     else 0,
   fun _ _ => true⟩

/-- An all-air, all-dark space that holds no chunk at all, so `get_lights`
always returns `none`. -/
def spaceNC : Space := ⟨fun _ _ _ => 0, fun _ _ _ => 0, fun _ _ _ _ => 0, fun _ _ => false⟩

/-! Basic lemmas about the voxel access. -/

lemma get_voxel_set_sunlight (s : Space) (x y z : Int) (l : Nat) :
    (s.set_sunlight x y z l).get_voxel = s.get_voxel := rfl

lemma get_voxel_set_torch_light (s : Space) (x y z : Int) (l : Nat) (c : LightColor) :
    (s.set_torch_light x y z l c).get_voxel = s.get_voxel := rfl

lemma hasChunk_set_sunlight (s : Space) (x y z : Int) (l : Nat) :
    (s.set_sunlight x y z l).hasChunk = s.hasChunk := rfl

lemma hasChunk_set_torch_light (s : Space) (x y z : Int) (l : Nat) (c : LightColor) :
    (s.set_torch_light x y z l c).hasChunk = s.hasChunk := rfl

lemma sun_set_torch_light (s : Space) (x y z : Int) (l : Nat) (c : LightColor) :
    (s.set_torch_light x y z l c).sun = s.sun := rfl

lemma lightAt_set_sunlight (s : Space) (x y z : Int) (l : Nat) (c : LightColor)
    (a b d : Int) :
    (s.set_sunlight x y z l).lightAt c a b d =
      if c = LightColor.Sunlight ∧ a = x ∧ b = y ∧ d = z then l else s.lightAt c a b d := by
  by_cases hc : c = LightColor.Sunlight <;> simp [Space.set_sunlight, Space.lightAt, hc]

lemma lightAt_set_torch_light (s : Space) (x y z : Int) (l : Nat) (col : LightColor)
    (c : LightColor) (a b d : Int) :
    (s.set_torch_light x y z l col).lightAt c a b d =
      if c = col ∧ ¬ c = LightColor.Sunlight ∧ a = x ∧ b = y ∧ d = z then l
      else s.lightAt c a b d := by
  by_cases hc : c = LightColor.Sunlight
  · simp [Space.set_torch_light, Space.lightAt, hc]
  · by_cases hcol : c = col
    · subst hcol; simp [Space.set_torch_light, Space.lightAt, hc]
    · simp [Space.set_torch_light, Space.lightAt, hc, hcol]

lemma flood_read_eq_lightAt (s : Space) (color : LightColor) (x y z : Int) :
    flood_read s color x y z = s.lightAt color x y z := by
  by_cases hc : color = LightColor.Sunlight <;>
    simp [flood_read, Space.get_sunlight, Space.get_torch_light, Space.lightAt, hc]

lemma flood_write_lightAt (s : Space) (color : LightColor) (x y z : Int) (l : Nat)
    (c : LightColor) (a b d : Int) :
    (flood_write s color x y z l).lightAt c a b d =
      if c = color ∧ a = x ∧ b = y ∧ d = z then l else s.lightAt c a b d := by
  by_cases hcol : color = LightColor.Sunlight
  · subst hcol; rw [flood_write, if_pos rfl, lightAt_set_sunlight]
  · rw [flood_write, if_neg hcol, lightAt_set_torch_light]
    by_cases hc : c = color
    · subst hc; simp [hcol]
    · simp [hc]

lemma flood_write_get_voxel (s : Space) (color : LightColor) (x y z : Int) (l : Nat) :
    (flood_write s color x y z l).get_voxel = s.get_voxel := by
  rw [flood_write]; split <;> rfl

lemma flood_write_hasChunk (s : Space) (color : LightColor) (x y z : Int) (l : Nat) :
    (flood_write s color x y z l).hasChunk = s.hasChunk := by
  rw [flood_write]; split <;> rfl

lemma flood_write_sun_of_ne (s : Space) (color : LightColor) (x y z : Int) (l : Nat)
    (hc : ¬ color = LightColor.Sunlight) :
    (flood_write s color x y z l).sun = s.sun := by
  rw [flood_write, if_neg hc, sun_set_torch_light]

/-! Characterization and invariants of the flood neighbor step. -/

lemma flood_neighbor_eq (registry : Registry) (config : WorldConfig) (color : LightColor)
    (mn : Option (Int × Int × Int)) (shape : Option (Nat × Nat × Nat))
    (vx vy vz : Int) (level : Nat) (sp : Space) (q : List LightNode)
    (off : Int × Int × Int) :
    flood_neighbor registry config color mn shape vx vy vz level (sp, q) off =
      if vy + off.2.1 < 0 ∨ (config.max_height : Int) ≤ vy + off.2.1 then (sp, q)
      else if chunk_region_reject config mn shape (vx + off.1) (vy + off.2.1)
          (vz + off.2.2) = true then (sp, q)
      else if ¬ (registry.get_block_by_id
            (sp.get_voxel (vx + off.1) (vy + off.2.1) (vz + off.2.2))).is_transparent = true
          ∨ level - 1 ≤ sp.lightAt color (vx + off.1) (vy + off.2.1) (vz + off.2.2) then
        (sp, q)
      else
        (flood_write sp color (vx + off.1) (vy + off.2.1) (vz + off.2.2) (level - 1),
         q ++ [⟨(vx + off.1, vy + off.2.1, vz + off.2.2), level - 1⟩]) := by
  simp only [flood_neighbor, flood_read_eq_lightAt]

lemma flood_neighbor_mono (registry : Registry) (config : WorldConfig) (color : LightColor)
    (mn : Option (Int × Int × Int)) (shape : Option (Nat × Nat × Nat))
    (vx vy vz : Int) (level : Nat) (acc : Space × List LightNode) (off : Int × Int × Int)
    (c : LightColor) (a b d : Int) :
    acc.1.lightAt c a b d ≤
      (flood_neighbor registry config color mn shape vx vy vz level acc off).1.lightAt
        c a b d := by
  obtain ⟨sp, q⟩ := acc
  rw [flood_neighbor_eq]
  split_ifs with h1 h2 h3
  · exact le_refl _
  · exact le_refl _
  · exact le_refl _
  · dsimp only
    rw [flood_write_lightAt]
    split_ifs with h4
    · obtain ⟨hc, ha, hb, hd⟩ := h4
      subst hc; subst ha; subst hb; subst hd
      push_neg at h3
      exact le_of_lt h3.2
    · exact le_refl _

lemma flood_fold_mono (registry : Registry) (config : WorldConfig) (color : LightColor)
    (mn : Option (Int × Int × Int)) (shape : Option (Nat × Nat × Nat))
    (vx vy vz : Int) (level : Nat) (offs : List (Int × Int × Int))
    (acc : Space × List LightNode) (c : LightColor) (a b d : Int) :
    acc.1.lightAt c a b d ≤
      (offs.foldl (flood_neighbor registry config color mn shape vx vy vz level)
        acc).1.lightAt c a b d := by
  induction offs generalizing acc with
  | nil => exact le_refl _
  | cons o os ih =>
    rw [List.foldl_cons]
    exact le_trans
      (flood_neighbor_mono registry config color mn shape vx vy vz level acc o c a b d)
      (ih _)

lemma flood_loop_mono (registry : Registry) (config : WorldConfig) (color : LightColor)
    (mn : Option (Int × Int × Int)) (shape : Option (Nat × Nat × Nat)) (fuel : Nat) :
    ∀ (space : Space) (queue : List LightNode) (c : LightColor) (a b d : Int),
    space.lightAt c a b d ≤
      (flood_loop registry config color mn shape fuel space queue).1.lightAt c a b d := by
  induction fuel with
  | zero => intro space queue c a b d; exact le_refl _
  | succ n ih =>
    intro space queue c a b d
    cases queue with
    | nil => exact le_refl _
    | cons node rest =>
      by_cases h0 : node.level = 0
      · simp [flood_loop, h0]
      · simp only [flood_loop, h0, if_false]
        exact le_trans
          (flood_fold_mono registry config color mn shape node.voxel.1 node.voxel.2.1
            node.voxel.2.2 node.level VOXEL_NEIGHBORS (space, rest) c a b d)
          (ih _ _ c a b d)

lemma flood_neighbor_queue_new_pos (registry : Registry) (config : WorldConfig)
    (color : LightColor) (mn : Option (Int × Int × Int)) (shape : Option (Nat × Nat × Nat))
    (vx vy vz : Int) (level : Nat) (acc : Space × List LightNode) (off : Int × Int × Int) :
    ∀ n ∈ (flood_neighbor registry config color mn shape vx vy vz level acc off).2,
      n ∈ acc.2 ∨ 1 ≤ n.level := by
  obtain ⟨sp, q⟩ := acc
  rw [flood_neighbor_eq]
  split_ifs with h1 h2 h3
  · exact fun n hn => Or.inl hn
  · exact fun n hn => Or.inl hn
  · exact fun n hn => Or.inl hn
  · intro n hn
    dsimp only at hn
    rcases List.mem_append.mp hn with h | h
    · exact Or.inl h
    · right
      have hn' : n = (⟨(vx + off.1, vy + off.2.1, vz + off.2.2), level - 1⟩ : LightNode) := by
        simpa using h
      subst hn'
      push_neg at h3
      have hlt := h3.2
      show 1 ≤ level - 1
      omega

lemma flood_neighbor_changed_pos (registry : Registry) (config : WorldConfig)
    (color : LightColor) (mn : Option (Int × Int × Int)) (shape : Option (Nat × Nat × Nat))
    (vx vy vz : Int) (level : Nat) (acc : Space × List LightNode) (off : Int × Int × Int)
    (c : LightColor) (a b d : Int) :
    (flood_neighbor registry config color mn shape vx vy vz level acc off).1.lightAt
        c a b d ≠ acc.1.lightAt c a b d →
    1 ≤ (flood_neighbor registry config color mn shape vx vy vz level acc off).1.lightAt
        c a b d := by
  obtain ⟨sp, q⟩ := acc
  rw [flood_neighbor_eq]
  split_ifs with h1 h2 h3 <;> intro hne
  · exact absurd rfl hne
  · exact absurd rfl hne
  · exact absurd rfl hne
  · dsimp only at hne ⊢
    rw [flood_write_lightAt] at hne ⊢
    split_ifs at hne ⊢ with h4
    · push_neg at h3
      have := h3.2
      omega
    · exact absurd rfl hne

lemma flood_fold_changed_pos (registry : Registry) (config : WorldConfig)
    (color : LightColor) (mn : Option (Int × Int × Int)) (shape : Option (Nat × Nat × Nat))
    (vx vy vz : Int) (level : Nat) (offs : List (Int × Int × Int))
    (acc : Space × List LightNode) (c : LightColor) (a b d : Int) :
    (offs.foldl (flood_neighbor registry config color mn shape vx vy vz level)
        acc).1.lightAt c a b d ≠ acc.1.lightAt c a b d →
    1 ≤ (offs.foldl (flood_neighbor registry config color mn shape vx vy vz level)
        acc).1.lightAt c a b d := by
  induction offs generalizing acc with
  | nil => intro h; exact absurd rfl h
  | cons o os ih =>
    rw [List.foldl_cons]
    intro hne
    by_cases he : (os.foldl (flood_neighbor registry config color mn shape vx vy vz level)
        (flood_neighbor registry config color mn shape vx vy vz level acc o)).1.lightAt
          c a b d =
        (flood_neighbor registry config color mn shape vx vy vz level acc o).1.lightAt
          c a b d
    · rw [he] at hne ⊢
      exact flood_neighbor_changed_pos registry config color mn shape vx vy vz level acc o
        c a b d hne
    · exact ih _ he

lemma flood_loop_changed_pos (registry : Registry) (config : WorldConfig)
    (color : LightColor) (mn : Option (Int × Int × Int)) (shape : Option (Nat × Nat × Nat))
    (fuel : Nat) :
    ∀ (space : Space) (queue : List LightNode) (c : LightColor) (a b d : Int),
    (flood_loop registry config color mn shape fuel space queue).1.lightAt c a b d ≠
      space.lightAt c a b d →
    1 ≤ (flood_loop registry config color mn shape fuel space queue).1.lightAt c a b d := by
  induction fuel with
  | zero => intro space queue c a b d h; exact absurd rfl h
  | succ n ih =>
    intro space queue c a b d
    cases queue with
    | nil => intro h; exact absurd rfl h
    | cons node rest =>
      by_cases h0 : node.level = 0
      · simp only [flood_loop, h0, if_true]
        intro h; exact absurd rfl h
      · simp only [flood_loop, h0, if_false]
        intro hne
        by_cases he :
            (flood_loop registry config color mn shape n
              (VOXEL_NEIGHBORS.foldl (flood_neighbor registry config color mn shape
                node.voxel.1 node.voxel.2.1 node.voxel.2.2 node.level) (space, rest)).1
              (VOXEL_NEIGHBORS.foldl (flood_neighbor registry config color mn shape
                node.voxel.1 node.voxel.2.1 node.voxel.2.2 node.level)
                (space, rest)).2).1.lightAt c a b d =
            (VOXEL_NEIGHBORS.foldl (flood_neighbor registry config color mn shape
              node.voxel.1 node.voxel.2.1 node.voxel.2.2 node.level)
              (space, rest)).1.lightAt c a b d
        · rw [he] at hne ⊢
          exact flood_fold_changed_pos registry config color mn shape node.voxel.1
            node.voxel.2.1 node.voxel.2.2 node.level VOXEL_NEIGHBORS (space, rest)
            c a b d hne
        · exact ih _ _ c a b d he

/-! Claim theorems about `flood_light`. -/

/-- C6: `flood_light` is monotone.  For every fuel, input queue, channel,
registry, configuration and optional bounds, the light level of every cell on
every channel (the flooded one included) after `flood_light` returns is
greater than or equal to its level before the call: no write ever decreases
a cell's level. -/
theorem flood_light_monotone (fuel : Nat) (space : Space) (queue : List LightNode)
    (color : LightColor) (registry : Registry) (config : WorldConfig)
    (mn : Option (Int × Int × Int)) (shape : Option (Nat × Nat × Nat))
    (c : LightColor) (x y z : Int) :
    space.lightAt c x y z ≤
      (flood_light fuel space queue color registry config mn shape).1.lightAt c x y z :=
  flood_loop_mono registry config color mn shape fuel space queue c x y z

/-- C1 counterexample: the claim says that after popping a zero-level node
the remaining queue nodes are still processed as usual, but the source
executes `break` (line 65).  With queue `[((0,0,0), 0), ((2,0,0), 2)]` over an
all-air world the flood completes (flag `true`) yet leaves the neighbor
(3,0,0) of the second node dark, whereas the very same flood run on the
remaining queue alone lights it to 1. -/
theorem flood_light_zero_head_cex :
    ((flood_light 10 spaceZero [⟨(0, 0, 0), 0⟩, ⟨(2, 0, 0), 2⟩] LightColor.Red regAir cfgA
        none none).1.lightAt LightColor.Red 3 0 0,
     (flood_light 10 spaceZero [⟨(0, 0, 0), 0⟩, ⟨(2, 0, 0), 2⟩] LightColor.Red regAir cfgA
        none none).2,
     (flood_light 10 spaceZero [⟨(2, 0, 0), 2⟩] LightColor.Red regAir cfgA
        none none).1.lightAt LightColor.Red 3 0 0) = (0, true, 1) := by decide

/-- C1 amended: when `flood_light` pops a node with level 0 it terminates
the entire loop immediately (`break`): it lights no neighbor from it, and the
remaining nodes of the queue are discarded without being processed; the
space is returned unchanged. -/
theorem flood_light_zero_head_terminates (fuel : Nat) (space : Space)
    (v : Int × Int × Int) (rest : List LightNode) (color : LightColor)
    (registry : Registry) (config : WorldConfig) (mn : Option (Int × Int × Int))
    (shape : Option (Nat × Nat × Nat)) :
    flood_light (fuel + 1) space (⟨v, 0⟩ :: rest) color registry config mn shape =
      (space, true) := by
  simp [flood_light, flood_loop]

/-- C9: `flood_light` evaluates the unsigned subtraction `level - 1` only
behind the `level == 0` exit, so it cannot underflow: a dequeued zero-level
node halts the loop before any decrement (first conjunct); every node pushed
during expansion has level at least 1 (second conjunct); and every cell whose
light the flood changed holds a value of at least 1 (third conjunct). -/
theorem flood_light_no_underflow :
    (∀ (fuel : Nat) (space : Space) (v : Int × Int × Int) (rest : List LightNode)
        (color : LightColor) (registry : Registry) (config : WorldConfig)
        (mn : Option (Int × Int × Int)) (shape : Option (Nat × Nat × Nat)),
      flood_light (fuel + 1) space (⟨v, 0⟩ :: rest) color registry config mn shape =
        (space, true)) ∧
    (∀ (registry : Registry) (config : WorldConfig) (color : LightColor)
        (mn : Option (Int × Int × Int)) (shape : Option (Nat × Nat × Nat))
        (vx vy vz : Int) (level : Nat) (acc : Space × List LightNode)
        (off : Int × Int × Int),
      ∀ n ∈ (flood_neighbor registry config color mn shape vx vy vz level acc off).2,
        n ∈ acc.2 ∨ 1 ≤ n.level) ∧
    (∀ (fuel : Nat) (space : Space) (queue : List LightNode) (color : LightColor)
        (registry : Registry) (config : WorldConfig) (mn : Option (Int × Int × Int))
        (shape : Option (Nat × Nat × Nat)) (c : LightColor) (x y z : Int),
      (flood_light fuel space queue color registry config mn shape).1.lightAt c x y z ≠
        space.lightAt c x y z →
      1 ≤ (flood_light fuel space queue color registry config mn shape).1.lightAt
        c x y z) := by
  refine ⟨?_, ?_, ?_⟩
  · intro fuel space v rest color registry config mn shape
    simp [flood_light, flood_loop]
  · intro registry config color mn shape vx vy vz level acc off
    exact flood_neighbor_queue_new_pos registry config color mn shape vx vy vz level acc off
  · intro fuel space queue color registry config mn shape c x y z
    exact flood_loop_changed_pos registry config color mn shape fuel space queue c x y z

/-- Witness for C9 at a concrete input: the flood of a level-2 red node at
(2,0,0) changes the neighbor (3,0,0), and the changed value is at least 1. -/
theorem flood_light_no_underflow_witness :
    (flood_light 10 spaceZero [⟨(2, 0, 0), 2⟩] LightColor.Red regAir cfgA none
        none).1.lightAt LightColor.Red 3 0 0 ≠
      spaceZero.lightAt LightColor.Red 3 0 0 ∧
    1 ≤ (flood_light 10 spaceZero [⟨(2, 0, 0), 2⟩] LightColor.Red regAir cfgA none
        none).1.lightAt LightColor.Red 3 0 0 :=
  ⟨by decide,
   flood_light_no_underflow.2.2 10 spaceZero [⟨(2, 0, 0), 2⟩] LightColor.Red regAir cfgA
     none none LightColor.Red 3 0 0 (by decide)⟩

/-- C4: for a popped node of positive level and a neighbor that passes the
height, chunk-rectangle and optional region-bounds checks, the step computes
`next = level - 1` uniformly (the statement quantifies over every channel
`color`, sunlight included, and every direction `off`, the downward one
included), writes `next` to the neighbor's channel exactly when the
neighbor's block is transparent and its current level is strictly below
`next`, and pushes the neighbor at `next` onto the queue in exactly the same
case. -/
theorem flood_light_step_characterization (registry : Registry) (config : WorldConfig)
    (color : LightColor) (mn : Option (Int × Int × Int))
    (shape : Option (Nat × Nat × Nat)) (vx vy vz : Int) (level : Nat) (sp : Space)
    (q : List LightNode) (off : Int × Int × Int)
    (_hlevel : 1 ≤ level)
    (hy : ¬ (vy + off.2.1 < 0 ∨ (config.max_height : Int) ≤ vy + off.2.1))
    (hguard : chunk_region_reject config mn shape (vx + off.1) (vy + off.2.1)
      (vz + off.2.2) = false) :
    (flood_neighbor registry config color mn shape vx vy vz level (sp, q) off).1.lightAt
        color (vx + off.1) (vy + off.2.1) (vz + off.2.2) =
      (if (registry.get_block_by_id (sp.get_voxel (vx + off.1) (vy + off.2.1)
            (vz + off.2.2))).is_transparent = true ∧
          sp.lightAt color (vx + off.1) (vy + off.2.1) (vz + off.2.2) < level - 1
        then level - 1
        else sp.lightAt color (vx + off.1) (vy + off.2.1) (vz + off.2.2)) ∧
    (flood_neighbor registry config color mn shape vx vy vz level (sp, q) off).2 =
      (if (registry.get_block_by_id (sp.get_voxel (vx + off.1) (vy + off.2.1)
            (vz + off.2.2))).is_transparent = true ∧
          sp.lightAt color (vx + off.1) (vy + off.2.1) (vz + off.2.2) < level - 1
        then q ++ [⟨(vx + off.1, vy + off.2.1, vz + off.2.2), level - 1⟩]
        else q) := by
  rw [flood_neighbor_eq]
  have hg : ¬ chunk_region_reject config mn shape (vx + off.1) (vy + off.2.1)
      (vz + off.2.2) = true := by simp [hguard]
  rw [if_neg hy, if_neg hg]
  by_cases hcond : (registry.get_block_by_id (sp.get_voxel (vx + off.1) (vy + off.2.1)
        (vz + off.2.2))).is_transparent = true ∧
      sp.lightAt color (vx + off.1) (vy + off.2.1) (vz + off.2.2) < level - 1
  · have hneg : ¬ (¬ (registry.get_block_by_id (sp.get_voxel (vx + off.1) (vy + off.2.1)
          (vz + off.2.2))).is_transparent = true ∨
        level - 1 ≤ sp.lightAt color (vx + off.1) (vy + off.2.1) (vz + off.2.2)) := by
      push_neg
      exact ⟨hcond.1, hcond.2⟩
    rw [if_neg hneg]
    constructor
    · dsimp only
      rw [flood_write_lightAt]
      simp [hcond]
    · simp [hcond]
  · have hpos : ¬ (registry.get_block_by_id (sp.get_voxel (vx + off.1) (vy + off.2.1)
          (vz + off.2.2))).is_transparent = true ∨
        level - 1 ≤ sp.lightAt color (vx + off.1) (vy + off.2.1) (vz + off.2.2) := by
      rcases not_and_or.mp hcond with h | h
      · exact Or.inl h
      · exact Or.inr (not_lt.mp h)
    rw [if_pos hpos]
    constructor
    · simp [hcond]
    · simp [hcond]

/-- Witness for C4 at a concrete input: flooding a red level-2 node at
(2,0,0) over air writes 1 at the neighbor (3,0,0) and pushes it at level 1. -/
theorem flood_light_step_characterization_witness :
    (flood_neighbor regAir cfgA LightColor.Red none none 2 0 0 2 (spaceZero, [])
        (1, 0, 0)).1.lightAt LightColor.Red 3 0 0 = 1 ∧
    (flood_neighbor regAir cfgA LightColor.Red none none 2 0 0 2 (spaceZero, [])
        (1, 0, 0)).2 = [⟨(3, 0, 0), 1⟩] := by
  obtain ⟨h1, h2⟩ := flood_light_step_characterization regAir cfgA LightColor.Red none none
    2 0 0 2 spaceZero [] (1, 0, 0) (by decide) (by decide) (by decide)
  exact ⟨h1.trans (by decide), h2.trans (by decide)⟩

/-! Characterization of the darkening step of `remove_light`. -/

lemma remove_neighbor_eq (config : WorldConfig) (color : LightColor) (vx vy vz : Int)
    (level : Nat) (sp : Space) (q fill : List LightNode) (off : Int × Int × Int) :
    remove_neighbor config color vx vy vz level (sp, q, fill) off =
      if vy + off.2.1 < 0 ∨ (config.max_height : Int) ≤ vy + off.2.1 then (sp, q, fill)
      else if sp.lightAt color (vx + off.1) (vy + off.2.1) (vz + off.2.2) = 0 then
        (sp, q, fill)
      else if sp.lightAt color (vx + off.1) (vy + off.2.1) (vz + off.2.2) < level ∨
          (color = LightColor.Sunlight ∧ off.2.1 = -1 ∧ level = config.max_light_level ∧
            sp.lightAt color (vx + off.1) (vy + off.2.1) (vz + off.2.2) =
              config.max_light_level) then
        (flood_write sp color (vx + off.1) (vy + off.2.1) (vz + off.2.2) 0,
         q ++ [⟨(vx + off.1, vy + off.2.1, vz + off.2.2),
           sp.lightAt color (vx + off.1) (vy + off.2.1) (vz + off.2.2)⟩],
         fill)
      else if level ≤ sp.lightAt color (vx + off.1) (vy + off.2.1) (vz + off.2.2) ∧
          (¬ color = LightColor.Sunlight ∨ ¬ off.2.1 = -1 ∨
            level < sp.lightAt color (vx + off.1) (vy + off.2.1) (vz + off.2.2)) then
        (sp, q, fill ++ [⟨(vx + off.1, vy + off.2.1, vz + off.2.2),
          sp.lightAt color (vx + off.1) (vy + off.2.1) (vz + off.2.2)⟩])
      else (sp, q, fill) := by
  simp only [remove_neighbor, flood_read_eq_lightAt]

/-- C5: the darkening traversal of `remove_light` treats every in-height
neighbor of positive level as the claim says.  First conjunct (descendant
rule): when the neighbor's level is strictly below the popped level, or the
sun-downward exemption applies (sunlight, downward step, both levels equal
to `max_light_level`), the neighbor is zeroed and pushed at its old level
onto the darken queue.  Second conjunct (survivor rule): otherwise, except
in the sun-downward case with equal levels, the neighbor is left unchanged
and enqueued at its level onto the refill queue.  Third conjunct: in the
excluded sun-downward equal-level case nothing happens.  Fourth conjunct:
`remove_light` runs the darkening loop and then invokes `flood_light` on the
accumulated refill queue with no bounding region (`min` and `shape` both
`none`). -/
theorem remove_light_darken_survivor_refill (config : WorldConfig) (color : LightColor)
    (vx vy vz : Int) (level : Nat) (sp : Space) (q fill : List LightNode)
    (off : Int × Int × Int)
    (hy : ¬ (vy + off.2.1 < 0 ∨ (config.max_height : Int) ≤ vy + off.2.1))
    (hnl : 0 < sp.lightAt color (vx + off.1) (vy + off.2.1) (vz + off.2.2)) :
    ((sp.lightAt color (vx + off.1) (vy + off.2.1) (vz + off.2.2) < level ∨
        (color = LightColor.Sunlight ∧ off.2.1 = -1 ∧ level = config.max_light_level ∧
          sp.lightAt color (vx + off.1) (vy + off.2.1) (vz + off.2.2) =
            config.max_light_level)) →
      remove_neighbor config color vx vy vz level (sp, q, fill) off =
        (flood_write sp color (vx + off.1) (vy + off.2.1) (vz + off.2.2) 0,
         q ++ [⟨(vx + off.1, vy + off.2.1, vz + off.2.2),
           sp.lightAt color (vx + off.1) (vy + off.2.1) (vz + off.2.2)⟩],
         fill)) ∧
    (¬ (sp.lightAt color (vx + off.1) (vy + off.2.1) (vz + off.2.2) < level ∨
        (color = LightColor.Sunlight ∧ off.2.1 = -1 ∧ level = config.max_light_level ∧
          sp.lightAt color (vx + off.1) (vy + off.2.1) (vz + off.2.2) =
            config.max_light_level)) →
      ¬ (color = LightColor.Sunlight ∧ off.2.1 = -1 ∧
          sp.lightAt color (vx + off.1) (vy + off.2.1) (vz + off.2.2) = level) →
      remove_neighbor config color vx vy vz level (sp, q, fill) off =
        (sp, q, fill ++ [⟨(vx + off.1, vy + off.2.1, vz + off.2.2),
          sp.lightAt color (vx + off.1) (vy + off.2.1) (vz + off.2.2)⟩])) ∧
    (¬ (sp.lightAt color (vx + off.1) (vy + off.2.1) (vz + off.2.2) < level ∨
        (color = LightColor.Sunlight ∧ off.2.1 = -1 ∧ level = config.max_light_level ∧
          sp.lightAt color (vx + off.1) (vy + off.2.1) (vz + off.2.2) =
            config.max_light_level)) →
      (color = LightColor.Sunlight ∧ off.2.1 = -1 ∧
        sp.lightAt color (vx + off.1) (vy + off.2.1) (vz + off.2.2) = level) →
      remove_neighbor config color vx vy vz level (sp, q, fill) off = (sp, q, fill)) ∧
    (∀ (fuel1 fuel2 : Nat) (space : Space) (v : Int × Int × Int) (registry : Registry),
      remove_light fuel1 fuel2 space v color config registry =
        ((flood_light fuel2
            (remove_loop config color fuel1
              (flood_write space color v.1 v.2.1 v.2.2 0)
              [⟨v, flood_read space color v.1 v.2.1 v.2.2⟩] []).1
            (remove_loop config color fuel1
              (flood_write space color v.1 v.2.1 v.2.2 0)
              [⟨v, flood_read space color v.1 v.2.1 v.2.2⟩] []).2.1
            color registry config none none).1,
         (remove_loop config color fuel1
            (flood_write space color v.1 v.2.1 v.2.2 0)
            [⟨v, flood_read space color v.1 v.2.1 v.2.2⟩] []).2.2 &&
           (flood_light fuel2
             (remove_loop config color fuel1
               (flood_write space color v.1 v.2.1 v.2.2 0)
               [⟨v, flood_read space color v.1 v.2.1 v.2.2⟩] []).1
             (remove_loop config color fuel1
               (flood_write space color v.1 v.2.1 v.2.2 0)
               [⟨v, flood_read space color v.1 v.2.1 v.2.2⟩] []).2.1
             color registry config none none).2)) := by
  have hz : ¬ sp.lightAt color (vx + off.1) (vy + off.2.1) (vz + off.2.2) = 0 := by omega
  refine ⟨?_, ?_, ?_, ?_⟩
  · intro hdark
    rw [remove_neighbor_eq, if_neg hy, if_neg hz, if_pos hdark]
  · intro hdark hexc
    have hle : level ≤ sp.lightAt color (vx + off.1) (vy + off.2.1) (vz + off.2.2) := by
      rcases not_or.mp hdark with ⟨h1, _⟩
      omega
    have hcond : level ≤ sp.lightAt color (vx + off.1) (vy + off.2.1) (vz + off.2.2) ∧
        (¬ color = LightColor.Sunlight ∨ ¬ off.2.1 = -1 ∨
          level < sp.lightAt color (vx + off.1) (vy + off.2.1) (vz + off.2.2)) := by
      refine ⟨hle, ?_⟩
      by_cases hs : color = LightColor.Sunlight
      · by_cases hd : off.2.1 = -1
        · refine Or.inr (Or.inr ?_)
          have hne : ¬ sp.lightAt color (vx + off.1) (vy + off.2.1) (vz + off.2.2) =
              level := fun he => hexc ⟨hs, hd, he⟩
          omega
        · exact Or.inr (Or.inl hd)
      · exact Or.inl hs
    rw [remove_neighbor_eq, if_neg hy, if_neg hz, if_neg hdark, if_pos hcond]
  · intro hdark hexc
    obtain ⟨hs, hd, he⟩ := hexc
    have hcond : ¬ (level ≤ sp.lightAt color (vx + off.1) (vy + off.2.1) (vz + off.2.2) ∧
        (¬ color = LightColor.Sunlight ∨ ¬ off.2.1 = -1 ∨
          level < sp.lightAt color (vx + off.1) (vy + off.2.1) (vz + off.2.2))) := by
      rintro ⟨-, h2 | h2 | h2⟩
      · exact h2 hs
      · exact h2 hd
      · omega
    rw [remove_neighbor_eq, if_neg hy, if_neg hz, if_neg hdark, if_neg hcond]
  · intro fuel1 fuel2 space v registry
    rfl

/-- Witness for C5 at a concrete input: in the two-lamp red field, the
neighbor (1,0,0) of the popped origin at level 3 carries level 2 < 3, so the
descendant rule zeroes it and pushes it at level 2. -/
theorem remove_light_darken_survivor_refill_witness :
    ¬ (((0 : Int) + (1, (0 : Int), (0 : Int)).2.1 < 0 ∨
        ((cfgB.max_height : Int)) ≤ (0 : Int) + (1, (0 : Int), (0 : Int)).2.1)) ∧
    0 < spaceE.lightAt LightColor.Red 1 0 0 ∧
    remove_neighbor cfgB LightColor.Red 0 0 0 3 (spaceE, [], []) (1, 0, 0) =
      (flood_write spaceE LightColor.Red 1 0 0 0, [⟨(1, 0, 0), 2⟩], []) := by
  refine ⟨by decide, by decide, ?_⟩
  exact (remove_light_darken_survivor_refill cfgB LightColor.Red 0 0 0 3 spaceE [] []
    (1, 0, 0) (by decide) (by decide)).1 (Or.inl (by decide))

/-- C10: `remove_light` does not guarantee that the target ends dark.  In
the steady field of two red level-3 sources at (0,0,0) and (2,0,0), removing
the source at the origin completes (flag `true`) and leaves the origin at
red level 1: the darkening pass zeroes it, but the refill flood from the
surviving source at (2,0,0) writes 1 back. -/
theorem remove_light_target_can_stay_lit :
    ((remove_light 40 40 spaceE (0, 0, 0) LightColor.Red cfgB regAir).1.lightAt
        LightColor.Red 0 0 0,
     (remove_light 40 40 spaceE (0, 0, 0) LightColor.Red cfgB regAir).2) = (1, true) := by
  decide

/-! Frame lemmas: the flood does not change block data, does not light
opaque cells, keeps high cells high when all queue levels are below them,
and leaves the sun field alone when flooding a torch channel. -/

lemma flood_neighbor_get_voxel (registry : Registry) (config : WorldConfig)
    (color : LightColor) (mn : Option (Int × Int × Int)) (shape : Option (Nat × Nat × Nat))
    (vx vy vz : Int) (level : Nat) (acc : Space × List LightNode) (off : Int × Int × Int) :
    (flood_neighbor registry config color mn shape vx vy vz level acc off).1.get_voxel =
      acc.1.get_voxel := by
  obtain ⟨sp, q⟩ := acc
  rw [flood_neighbor_eq]
  split_ifs with h1 h2 h3
  · rfl
  · rfl
  · rfl
  · exact flood_write_get_voxel sp color _ _ _ _

lemma flood_fold_get_voxel (registry : Registry) (config : WorldConfig)
    (color : LightColor) (mn : Option (Int × Int × Int)) (shape : Option (Nat × Nat × Nat))
    (vx vy vz : Int) (level : Nat) (offs : List (Int × Int × Int))
    (acc : Space × List LightNode) :
    (offs.foldl (flood_neighbor registry config color mn shape vx vy vz level)
        acc).1.get_voxel = acc.1.get_voxel := by
  induction offs generalizing acc with
  | nil => rfl
  | cons o os ih =>
    rw [List.foldl_cons, ih _,
      flood_neighbor_get_voxel registry config color mn shape vx vy vz level acc o]

lemma flood_loop_get_voxel (registry : Registry) (config : WorldConfig)
    (color : LightColor) (mn : Option (Int × Int × Int)) (shape : Option (Nat × Nat × Nat))
    (fuel : Nat) :
    ∀ (space : Space) (queue : List LightNode),
    (flood_loop registry config color mn shape fuel space queue).1.get_voxel =
      space.get_voxel := by
  induction fuel with
  | zero => intro space queue; rfl
  | succ n ih =>
    intro space queue
    cases queue with
    | nil => rfl
    | cons node rest =>
      by_cases h0 : node.level = 0
      · simp [flood_loop, h0]
      · simp only [flood_loop, h0, if_false]
        rw [ih _ _, flood_fold_get_voxel]

lemma flood_neighbor_opaque_cell (registry : Registry) (config : WorldConfig)
    (color : LightColor) (mn : Option (Int × Int × Int)) (shape : Option (Nat × Nat × Nat))
    (vx vy vz : Int) (level : Nat) (acc : Space × List LightNode) (off : Int × Int × Int)
    (c : LightColor) (X Y Z : Int)
    (hop : ¬ (registry.get_block_by_id (acc.1.get_voxel X Y Z)).is_transparent = true) :
    (flood_neighbor registry config color mn shape vx vy vz level acc off).1.lightAt
        c X Y Z = acc.1.lightAt c X Y Z := by
  obtain ⟨sp, q⟩ := acc
  rw [flood_neighbor_eq]
  split_ifs with h1 h2 h3
  · rfl
  · rfl
  · rfl
  · dsimp only
    rw [flood_write_lightAt]
    split_ifs with h4
    · exfalso
      obtain ⟨hc, ha, hb, hd⟩ := h4
      push_neg at h3
      subst ha; subst hb; subst hd
      exact hop h3.1
    · rfl

lemma flood_fold_opaque_cell (registry : Registry) (config : WorldConfig)
    (color : LightColor) (mn : Option (Int × Int × Int)) (shape : Option (Nat × Nat × Nat))
    (vx vy vz : Int) (level : Nat) (offs : List (Int × Int × Int))
    (acc : Space × List LightNode) (c : LightColor) (X Y Z : Int)
    (hop : ¬ (registry.get_block_by_id (acc.1.get_voxel X Y Z)).is_transparent = true) :
    (offs.foldl (flood_neighbor registry config color mn shape vx vy vz level)
        acc).1.lightAt c X Y Z = acc.1.lightAt c X Y Z := by
  induction offs generalizing acc with
  | nil => rfl
  | cons o os ih =>
    rw [List.foldl_cons]
    have hv := flood_neighbor_get_voxel registry config color mn shape vx vy vz level acc o
    rw [ih _ (by rw [hv]; exact hop),
      flood_neighbor_opaque_cell registry config color mn shape vx vy vz level acc o c X Y Z hop]

lemma flood_loop_opaque_cell (registry : Registry) (config : WorldConfig)
    (color : LightColor) (mn : Option (Int × Int × Int)) (shape : Option (Nat × Nat × Nat))
    (fuel : Nat) :
    ∀ (space : Space) (queue : List LightNode) (c : LightColor) (X Y Z : Int),
    ¬ (registry.get_block_by_id (space.get_voxel X Y Z)).is_transparent = true →
    (flood_loop registry config color mn shape fuel space queue).1.lightAt c X Y Z =
      space.lightAt c X Y Z := by
  induction fuel with
  | zero => intro space queue c X Y Z _; rfl
  | succ n ih =>
    intro space queue c X Y Z hop
    cases queue with
    | nil => rfl
    | cons node rest =>
      by_cases h0 : node.level = 0
      · simp [flood_loop, h0]
      · simp only [flood_loop, h0, if_false]
        have hv := flood_fold_get_voxel registry config color mn shape node.voxel.1
          node.voxel.2.1 node.voxel.2.2 node.level VOXEL_NEIGHBORS (space, rest)
        rw [ih _ _ c X Y Z (by rw [hv]; exact hop),
          flood_fold_opaque_cell registry config color mn shape node.voxel.1 node.voxel.2.1
            node.voxel.2.2 node.level VOXEL_NEIGHBORS (space, rest) c X Y Z hop]

lemma flood_neighbor_preserve_ge (B : Nat) (registry : Registry) (config : WorldConfig)
    (color : LightColor) (mn : Option (Int × Int × Int)) (shape : Option (Nat × Nat × Nat))
    (vx vy vz : Int) (level : Nat) (acc : Space × List LightNode) (off : Int × Int × Int)
    (X Y Z : Int) (hlev : level ≤ B) (hge : B ≤ acc.1.lightAt color X Y Z) :
    (flood_neighbor registry config color mn shape vx vy vz level acc off).1.lightAt
        color X Y Z = acc.1.lightAt color X Y Z ∧
    (∀ n ∈ (flood_neighbor registry config color mn shape vx vy vz level acc off).2,
      n ∈ acc.2 ∨ n.level ≤ B) := by
  obtain ⟨sp, q⟩ := acc
  rw [flood_neighbor_eq]
  split_ifs with h1 h2 h3
  · exact ⟨rfl, fun n hn => Or.inl hn⟩
  · exact ⟨rfl, fun n hn => Or.inl hn⟩
  · exact ⟨rfl, fun n hn => Or.inl hn⟩
  · constructor
    · dsimp only
      rw [flood_write_lightAt]
      split_ifs with h4
      · exfalso
        obtain ⟨-, ha, hb, hd⟩ := h4
        push_neg at h3
        have hlt := h3.2
        rw [← ha, ← hb, ← hd] at hlt
        dsimp only at hge
        omega
      · rfl
    · intro n hn
      dsimp only at hn
      rcases List.mem_append.mp hn with h | h
      · exact Or.inl h
      · right
        have hn' : n = (⟨(vx + off.1, vy + off.2.1, vz + off.2.2), level - 1⟩ :
            LightNode) := by simpa using h
        subst hn'
        show level - 1 ≤ B
        omega

lemma flood_fold_preserve_ge (B : Nat) (registry : Registry) (config : WorldConfig)
    (color : LightColor) (mn : Option (Int × Int × Int)) (shape : Option (Nat × Nat × Nat))
    (vx vy vz : Int) (level : Nat) (offs : List (Int × Int × Int))
    (acc : Space × List LightNode) (X Y Z : Int)
    (hlev : level ≤ B) (hge : B ≤ acc.1.lightAt color X Y Z) :
    (offs.foldl (flood_neighbor registry config color mn shape vx vy vz level)
        acc).1.lightAt color X Y Z = acc.1.lightAt color X Y Z ∧
    (∀ n ∈ (offs.foldl (flood_neighbor registry config color mn shape vx vy vz level)
        acc).2, n ∈ acc.2 ∨ n.level ≤ B) := by
  induction offs generalizing acc with
  | nil => exact ⟨rfl, fun n hn => Or.inl hn⟩
  | cons o os ih =>
    rw [List.foldl_cons]
    obtain ⟨hstep, hq⟩ := flood_neighbor_preserve_ge B registry config color mn shape
      vx vy vz level acc o X Y Z hlev hge
    obtain ⟨hrec, hqr⟩ := ih (flood_neighbor registry config color mn shape vx vy vz
      level acc o) (by rw [hstep]; exact hge)
    refine ⟨by rw [hrec, hstep], fun n hn => ?_⟩
    rcases hqr n hn with h | h
    · exact hq n h
    · exact Or.inr h

lemma flood_loop_preserve_ge (B : Nat) (registry : Registry) (config : WorldConfig)
    (color : LightColor) (mn : Option (Int × Int × Int)) (shape : Option (Nat × Nat × Nat))
    (fuel : Nat) :
    ∀ (space : Space) (queue : List LightNode) (X Y Z : Int),
    (∀ n ∈ queue, n.level ≤ B) → B ≤ space.lightAt color X Y Z →
    (flood_loop registry config color mn shape fuel space queue).1.lightAt color X Y Z =
      space.lightAt color X Y Z := by
  induction fuel with
  | zero => intro space queue X Y Z _ _; rfl
  | succ n ih =>
    intro space queue X Y Z hq hge
    cases queue with
    | nil => rfl
    | cons node rest =>
      by_cases h0 : node.level = 0
      · simp [flood_loop, h0]
      · simp only [flood_loop, h0, if_false]
        have hnode : node.level ≤ B := hq node (List.mem_cons_self node rest)
        obtain ⟨hstep, hqs⟩ := flood_fold_preserve_ge B registry config color mn shape
          node.voxel.1 node.voxel.2.1 node.voxel.2.2 node.level VOXEL_NEIGHBORS
          (space, rest) X Y Z hnode hge
        rw [ih _ _ X Y Z ?_ (by rw [hstep]; exact hge), hstep]
        intro m hm
        rcases hqs m hm with h | h
        · exact hq m (List.mem_cons_of_mem node h)
        · exact h

lemma flood_neighbor_sun_of_ne (registry : Registry) (config : WorldConfig)
    (color : LightColor) (mn : Option (Int × Int × Int)) (shape : Option (Nat × Nat × Nat))
    (vx vy vz : Int) (level : Nat) (acc : Space × List LightNode) (off : Int × Int × Int)
    (hc : ¬ color = LightColor.Sunlight) :
    (flood_neighbor registry config color mn shape vx vy vz level acc off).1.sun =
      acc.1.sun := by
  obtain ⟨sp, q⟩ := acc
  rw [flood_neighbor_eq]
  split_ifs with h1 h2 h3
  · rfl
  · rfl
  · rfl
  · exact flood_write_sun_of_ne sp color _ _ _ _ hc

lemma flood_fold_sun_of_ne (registry : Registry) (config : WorldConfig)
    (color : LightColor) (mn : Option (Int × Int × Int)) (shape : Option (Nat × Nat × Nat))
    (vx vy vz : Int) (level : Nat) (offs : List (Int × Int × Int))
    (acc : Space × List LightNode) (hc : ¬ color = LightColor.Sunlight) :
    (offs.foldl (flood_neighbor registry config color mn shape vx vy vz level)
        acc).1.sun = acc.1.sun := by
  induction offs generalizing acc with
  | nil => rfl
  | cons o os ih =>
    rw [List.foldl_cons, ih _,
      flood_neighbor_sun_of_ne registry config color mn shape vx vy vz level acc o hc]

lemma flood_loop_sun_of_ne (registry : Registry) (config : WorldConfig)
    (color : LightColor) (mn : Option (Int × Int × Int)) (shape : Option (Nat × Nat × Nat))
    (fuel : Nat) (hc : ¬ color = LightColor.Sunlight) :
    ∀ (space : Space) (queue : List LightNode),
    (flood_loop registry config color mn shape fuel space queue).1.sun = space.sun := by
  induction fuel with
  | zero => intro space queue; rfl
  | succ n ih =>
    intro space queue
    cases queue with
    | nil => rfl
    | cons node rest =>
      by_cases h0 : node.level = 0
      · simp [flood_loop, h0]
      · simp only [flood_loop, h0, if_false]
        rw [ih _ _, flood_fold_sun_of_ne registry config color mn shape node.voxel.1
          node.voxel.2.1 node.voxel.2.2 node.level VOXEL_NEIGHBORS (space, rest) hc]

/-- C8: when the voxel access holds no light data for the center chunk at
the end of `propagate`, `propagate` panics (here the panic is the `none`
outcome of the final `unwrap`) instead of returning a value, and whenever it
does return a value, that value is exactly the light view that `get_lights`
reported for the center chunk of the final space, never a substituted
default. -/
theorem propagate_missing_center_panics (fuel : Nat) (space : Space)
    (mn : Int × Int × Int) (center : Int × Int) (shape : Nat × Nat × Nat)
    (registry : Registry) (config : WorldConfig) :
    (∀ sb, propagate_floods fuel space mn shape registry config = some sb →
      sb.1.get_lights center.1 center.2 = none →
      propagate fuel space mn center shape registry config = none) ∧
    (∀ r, propagate fuel space mn center shape registry config = some r →
      r.2.1.get_lights center.1 center.2 = some r.1) := by
  constructor
  · intro sb hsb hnone
    rw [propagate, hsb]
    simp [hnone]
  · intro r hr
    rw [propagate] at hr
    rcases hpf : propagate_floods fuel space mn shape registry config with _ | sb
    · simp [hpf] at hr
    · simp only [hpf, Option.some_bind] at hr
      rcases hgl : sb.1.get_lights center.1 center.2 with _ | lv
      · simp [hgl] at hr
      · simp only [hgl, Option.map_some'] at hr
        obtain rfl := Option.some.inj hr
        exact hgl

/-- Witness for C8 at a concrete input: on a space that holds no chunk at
all, `propagate` panics (returns `none`) although the sweep and floods
themselves complete. -/
theorem propagate_missing_center_panics_witness :
    propagate 20 spaceNC (0, 0, 0) (0, 0) (1, 1, 1) regAir cfgB = none :=
  (propagate_missing_center_panics 20 spaceNC (0, 0, 0) (0, 0) (1, 1, 1) regAir cfgB).1
    ((propagate_floods 20 spaceNC (0, 0, 0) (1, 1, 1) regAir cfgB).getD (spaceNC, false))
    (by rfl) (by rfl)

/-! Lemmas about the parts of the sweep body. -/

lemma lightAt_set_sunlight_other (s : Space) (x y z : Int) (l : Nat) (c : LightColor)
    (a b d : Int) (hne : ¬ (a = x ∧ b = y ∧ d = z)) :
    (s.set_sunlight x y z l).lightAt c a b d = s.lightAt c a b d := by
  rw [lightAt_set_sunlight, if_neg (by tauto)]

lemma sweep_emissive_mask (b : Block) (wx y wz : Int) (st1 : SweepState) :
    (sweep_emissive b wx y wz st1).mask = st1.mask := by
  rw [sweep_emissive]; split_ifs <;> rfl

lemma sweep_emissive_sun_queue (b : Block) (wx y wz : Int) (st1 : SweepState) :
    (sweep_emissive b wx y wz st1).sun_queue = st1.sun_queue := by
  rw [sweep_emissive]; split_ifs <;> rfl

lemma sweep_emissive_get_voxel (b : Block) (wx y wz : Int) (st1 : SweepState) :
    (sweep_emissive b wx y wz st1).space.get_voxel = st1.space.get_voxel := by
  rw [sweep_emissive]; split_ifs <;> rfl

lemma sweep_emissive_hasChunk (b : Block) (wx y wz : Int) (st1 : SweepState) :
    (sweep_emissive b wx y wz st1).space.hasChunk = st1.space.hasChunk := by
  rw [sweep_emissive]; split_ifs <;> rfl

lemma sweep_emissive_sun (b : Block) (wx y wz : Int) (st1 : SweepState) :
    (sweep_emissive b wx y wz st1).space.sun = st1.space.sun := by
  rw [sweep_emissive]; split_ifs <;> rfl

lemma sweep_emissive_lightSun (b : Block) (wx y wz : Int) (st1 : SweepState)
    (X Y Z : Int) :
    (sweep_emissive b wx y wz st1).space.lightAt LightColor.Sunlight X Y Z =
      st1.space.lightAt LightColor.Sunlight X Y Z := by
  simp [Space.lightAt, sweep_emissive_sun]

lemma sweep_emissive_other (b : Block) (wx y wz : Int) (st1 : SweepState)
    (c : LightColor) (X Y Z : Int) (hne : ¬ (X = wx ∧ Y = y ∧ Z = wz)) :
    (sweep_emissive b wx y wz st1).space.lightAt c X Y Z =
      st1.space.lightAt c X Y Z := by
  rw [sweep_emissive]; split_ifs <;> simp [lightAt_set_torch_light, hne]

lemma sweep_emissive_channel (b : Block) (wx y wz : Int) (st1 : SweepState)
    (c : LightColor) (X Y Z : Int) (hem : emits b c = false) :
    (sweep_emissive b wx y wz st1).space.lightAt c X Y Z =
      st1.space.lightAt c X Y Z := by
  rw [sweep_emissive]
  by_cases hl : b.is_light = true
  · cases c with
    | Sunlight => split_ifs <;> simp [Space.lightAt, sun_set_torch_light]
    | Red =>
      have hr : ¬ 0 < b.red_light_level := by simp [emits, hl] at hem; omega
      split_ifs <;> simp [lightAt_set_torch_light]
    | Green =>
      have hr : ¬ 0 < b.green_light_level := by simp [emits, hl] at hem; omega
      split_ifs <;> simp [lightAt_set_torch_light]
    | Blue =>
      have hr : ¬ 0 < b.blue_light_level := by simp [emits, hl] at hem; omega
      split_ifs <;> simp [lightAt_set_torch_light]
  · rw [if_neg hl]

lemma sweep_transparent_frame (maxL : Nat) (s0 s2 x z : Nat) (wx y wz : Int)
    (st st' : SweepState)
    (h : sweep_transparent maxL s0 s2 x z wx y wz st = some st') :
    st'.mask = st.mask ∧ st'.space.get_voxel = st.space.get_voxel ∧
    st'.space.hasChunk = st.space.hasChunk ∧
    st'.red_queue = st.red_queue ∧ st'.green_queue = st.green_queue ∧
    st'.blue_queue = st.blue_queue ∧
    (∀ n ∈ st'.sun_queue, n ∈ st.sun_queue ∨ n.level = u32_sub_one maxL) ∧
    (∀ c X Y Z, ¬ (X = wx ∧ Y = y ∧ Z = wz) →
      st'.space.lightAt c X Y Z = st.space.lightAt c X Y Z) := by
  rw [sweep_transparent] at h
  rcases Option.bind_eq_some.mp h with ⟨mv, hmv, hf⟩
  by_cases h0 : mv = 0
  · rw [if_pos h0] at hf
    rcases Option.map_eq_some'.mp hf with ⟨seed, hseed, hg⟩
    by_cases hs : seed = true
    · rw [if_pos hs] at hg
      subst hg
      refine ⟨rfl, rfl, rfl, rfl, rfl, rfl, ?_, ?_⟩
      · intro n hn
        rcases List.mem_append.mp hn with hn | hn
        · exact Or.inl hn
        · exact Or.inr (by simpa using congrArg LightNode.level (List.mem_singleton.mp hn))
      · intro c X Y Z hne
        simp [lightAt_set_sunlight, hne]
    · rw [if_neg hs] at hg
      subst hg
      refine ⟨rfl, rfl, rfl, rfl, rfl, rfl, fun n hn => Or.inl hn, ?_⟩
      intro c X Y Z hne
      simp [lightAt_set_sunlight, hne]
  · rw [if_neg h0] at hf
    obtain rfl := (Option.some.inj hf)
    refine ⟨rfl, rfl, rfl, rfl, rfl, rfl, fun n hn => Or.inl hn, ?_⟩
    intro c X Y Z hne
    simp [lightAt_set_sunlight, hne]

lemma sweep_transparent_nonzero_mask (maxL : Nat) (s0 s2 x z : Nat) (wx y wz : Int)
    (st : SweepState) (mv : Nat)
    (hmv : mask_get st.mask (mask_index x z s2) = some mv) (h0 : ¬ mv = 0) :
    sweep_transparent maxL s0 s2 x z wx y wz st =
      some { st with space := st.space.set_sunlight wx y wz mv } := by
  rw [sweep_transparent, hmv, Option.some_bind, if_neg h0]

/-! Lemmas about one cell of the sweep. -/

lemma sweep_cell_frame (registry : Registry) (config : WorldConfig) (sx sz : Int)
    (s0 s2 : Nat) (y : Int) (x z : Nat) (st st' : SweepState)
    (h : sweep_cell registry config sx sz s0 s2 y x z st = some st') :
    st'.space.get_voxel = st.space.get_voxel ∧
    st'.space.hasChunk = st.space.hasChunk ∧
    st'.mask.length = st.mask.length ∧
    (∀ j, ¬ j = mask_index x z s2 → mask_get st'.mask j = mask_get st.mask j) ∧
    (∀ n ∈ st'.sun_queue, n ∈ st.sun_queue ∨ n.level = u32_sub_one config.max_light_level) ∧
    (∀ c X Y Z, ¬ (X = (x : Int) + sx ∧ Y = y ∧ Z = (z : Int) + sz) →
      st'.space.lightAt c X Y Z = st.space.lightAt c X Y Z) := by
  rw [sweep_cell] at h
  rcases Option.map_eq_some'.mp h with ⟨st1, hst1, hemi⟩
  subst hemi
  split_ifs at hst1 with ht
  · obtain ⟨hm, hv, hh, _, _, _, hq, hother⟩ :=
      sweep_transparent_frame config.max_light_level s0 s2 x z ((x : Int) + sx) y
        ((z : Int) + sz) st st1 hst1
    refine ⟨?_, ?_, ?_, ?_, ?_, ?_⟩
    · rw [sweep_emissive_get_voxel, hv]
    · rw [sweep_emissive_hasChunk, hh]
    · rw [sweep_emissive_mask, hm]
    · intro j _; rw [sweep_emissive_mask, hm]
    · intro n hn
      rw [sweep_emissive_sun_queue] at hn
      exact hq n hn
    · intro c X Y Z hne
      rw [sweep_emissive_other _ _ _ _ _ _ _ _ _ hne, hother c X Y Z hne]
  · rcases Option.map_eq_some'.mp hst1 with ⟨m2, hm2, hst1e⟩
    rw [mask_set] at hm2
    split_ifs at hm2 with hlen
    · obtain rfl := Option.some.inj hm2
      subst hst1e
      refine ⟨?_, ?_, ?_, ?_, ?_, ?_⟩
      · rw [sweep_emissive_get_voxel]
      · rw [sweep_emissive_hasChunk]
      · rw [sweep_emissive_mask]; exact List.length_set st.mask _ _
      · intro j hj
        rw [sweep_emissive_mask]
        exact List.get?_set_ne 0 st.mask (fun he => hj he.symm)
      · intro n hn
        rw [sweep_emissive_sun_queue] at hn
        exact Or.inl hn
      · intro c X Y Z hne
        exact sweep_emissive_other _ _ _ _ _ _ _ _ _ hne

lemma sweep_cell_mask_of_transparent (registry : Registry) (config : WorldConfig)
    (sx sz : Int) (s0 s2 : Nat) (y : Int) (x z : Nat) (st st' : SweepState)
    (h : sweep_cell registry config sx sz s0 s2 y x z st = some st')
    (ht : (registry.get_block_by_id
      (st.space.get_voxel ((x : Int) + sx) y ((z : Int) + sz))).is_transparent = true) :
    st'.mask = st.mask := by
  rw [sweep_cell] at h
  rcases Option.map_eq_some'.mp h with ⟨st1, hst1, hemi⟩
  subst hemi
  rw [if_pos ht] at hst1
  rw [sweep_emissive_mask,
    (sweep_transparent_frame config.max_light_level s0 s2 x z _ y _ st st1 hst1).1]

lemma sweep_cell_sun_write (registry : Registry) (config : WorldConfig)
    (sx sz : Int) (s0 s2 : Nat) (y : Int) (x z : Nat) (st st' : SweepState) (mv : Nat)
    (h : sweep_cell registry config sx sz s0 s2 y x z st = some st')
    (ht : (registry.get_block_by_id
      (st.space.get_voxel ((x : Int) + sx) y ((z : Int) + sz))).is_transparent = true)
    (hmv : mask_get st.mask (mask_index x z s2) = some mv) (h0 : ¬ mv = 0) :
    st'.space.lightAt LightColor.Sunlight ((x : Int) + sx) y ((z : Int) + sz) = mv := by
  rw [sweep_cell] at h
  rcases Option.map_eq_some'.mp h with ⟨st1, hst1, hemi⟩
  subst hemi
  rw [if_pos ht, sweep_transparent_nonzero_mask config.max_light_level s0 s2 x z _ y _ st
    mv hmv h0] at hst1
  obtain rfl := Option.some.inj hst1
  rw [sweep_emissive_lightSun, lightAt_set_sunlight, if_pos (by simp)]

lemma sweep_cell_preserve_channel (registry : Registry) (config : WorldConfig)
    (sx sz : Int) (s0 s2 : Nat) (y : Int) (x z : Nat) (st st' : SweepState)
    (c : LightColor) (X Y Z : Int)
    (h : sweep_cell registry config sx sz s0 s2 y x z st = some st')
    (hop : ¬ (registry.get_block_by_id (st.space.get_voxel X Y Z)).is_transparent = true)
    (hem : emits (registry.get_block_by_id (st.space.get_voxel X Y Z)) c = false) :
    st'.space.lightAt c X Y Z = st.space.lightAt c X Y Z := by
  by_cases hsame : X = (x : Int) + sx ∧ Y = y ∧ Z = (z : Int) + sz
  · obtain ⟨hX, hY, hZ⟩ := hsame
    subst hX; subst hY; subst hZ
    rw [sweep_cell] at h
    rcases Option.map_eq_some'.mp h with ⟨st1, hst1, hemi⟩
    subst hemi
    rw [if_neg hop] at hst1
    rcases Option.map_eq_some'.mp hst1 with ⟨m2, _, hst1e⟩
    subst hst1e
    exact sweep_emissive_channel _ _ _ _ _ _ _ _ _ hem
  · exact (sweep_cell_frame registry config sx sz s0 s2 y x z st st' h).2.2.2.2.2
      c X Y Z hsame

/-! Lifting the per-cell preservation of opaque, non-emitting cells through
the three sweep loops and the flood stages. -/

lemma sweep_zs_preserve_channel (registry : Registry) (config : WorldConfig)
    (sx sz : Int) (s0 s2 : Nat) (y : Int) (x : Nat) (c : LightColor) (X Y Z : Int) :
    ∀ (zs : List Nat) (st st' : SweepState),
    sweep_zs registry config sx sz s0 s2 y x zs st = some st' →
    ¬ (registry.get_block_by_id (st.space.get_voxel X Y Z)).is_transparent = true →
    emits (registry.get_block_by_id (st.space.get_voxel X Y Z)) c = false →
    st'.space.get_voxel = st.space.get_voxel ∧
    st'.space.lightAt c X Y Z = st.space.lightAt c X Y Z := by
  intro zs
  induction zs with
  | nil =>
    intro st st' h _ _
    obtain rfl := Option.some.inj h
    exact ⟨rfl, rfl⟩
  | cons z0 zs ih =>
    intro st st' h hop hem
    rw [sweep_zs] at h
    rcases Option.bind_eq_some.mp h with ⟨stm, hcell, hrest⟩
    have hvox := (sweep_cell_frame registry config sx sz s0 s2 y x z0 st stm hcell).1
    have hstep := sweep_cell_preserve_channel registry config sx sz s0 s2 y x z0 st stm
      c X Y Z hcell hop hem
    obtain ⟨hv2, hl2⟩ := ih stm st' hrest (by rw [hvox]; exact hop)
      (by rw [hvox]; exact hem)
    exact ⟨by rw [hv2, hvox], by rw [hl2, hstep]⟩

lemma sweep_xs_preserve_channel (registry : Registry) (config : WorldConfig)
    (sx sz : Int) (s0 s2 : Nat) (y : Int) (c : LightColor) (X Y Z : Int) :
    ∀ (xs : List Nat) (st st' : SweepState),
    sweep_xs registry config sx sz s0 s2 y xs st = some st' →
    ¬ (registry.get_block_by_id (st.space.get_voxel X Y Z)).is_transparent = true →
    emits (registry.get_block_by_id (st.space.get_voxel X Y Z)) c = false →
    st'.space.get_voxel = st.space.get_voxel ∧
    st'.space.lightAt c X Y Z = st.space.lightAt c X Y Z := by
  intro xs
  induction xs with
  | nil =>
    intro st st' h _ _
    obtain rfl := Option.some.inj h
    exact ⟨rfl, rfl⟩
  | cons x0 xs ih =>
    intro st st' h hop hem
    rw [sweep_xs] at h
    rcases Option.bind_eq_some.mp h with ⟨stm, hz, hrest⟩
    obtain ⟨hvox, hstep⟩ := sweep_zs_preserve_channel registry config sx sz s0 s2 y x0
      c X Y Z (List.range s2) st stm hz hop hem
    obtain ⟨hv2, hl2⟩ := ih stm st' hrest (by rw [hvox]; exact hop)
      (by rw [hvox]; exact hem)
    exact ⟨by rw [hv2, hvox], by rw [hl2, hstep]⟩

lemma sweep_rows_preserve_channel (registry : Registry) (config : WorldConfig)
    (sx sz : Int) (s0 s2 : Nat) (c : LightColor) (X Y Z : Int) :
    ∀ (ys : List Int) (st st' : SweepState),
    sweep_rows registry config sx sz s0 s2 ys st = some st' →
    ¬ (registry.get_block_by_id (st.space.get_voxel X Y Z)).is_transparent = true →
    emits (registry.get_block_by_id (st.space.get_voxel X Y Z)) c = false →
    st'.space.get_voxel = st.space.get_voxel ∧
    st'.space.lightAt c X Y Z = st.space.lightAt c X Y Z := by
  intro ys
  induction ys with
  | nil =>
    intro st st' h _ _
    obtain rfl := Option.some.inj h
    exact ⟨rfl, rfl⟩
  | cons y0 ys ih =>
    intro st st' h hop hem
    rw [sweep_rows] at h
    rcases Option.bind_eq_some.mp h with ⟨stm, hx, hrest⟩
    obtain ⟨hvox, hstep⟩ := sweep_xs_preserve_channel registry config sx sz s0 s2 y0
      c X Y Z (List.range s0) st stm hx hop hem
    obtain ⟨hv2, hl2⟩ := ih stm st' hrest (by rw [hvox]; exact hop)
      (by rw [hvox]; exact hem)
    exact ⟨by rw [hv2, hvox], by rw [hl2, hstep]⟩

lemma flood_stage_opaque_cell (fuel : Nat) (registry : Registry) (config : WorldConfig)
    (mn : Int × Int × Int) (shape : Nat × Nat × Nat) (color : LightColor)
    (queue : List LightNode) (prev : Space × Bool) (V : Int → Int → Int → Nat)
    (c : LightColor) (X Y Z : Int)
    (hv : prev.1.get_voxel = V)
    (hop : ¬ (registry.get_block_by_id (V X Y Z)).is_transparent = true)
    (hval : prev.1.lightAt c X Y Z = 0) :
    (flood_stage fuel registry config mn shape color queue prev).1.get_voxel = V ∧
    (flood_stage fuel registry config mn shape color queue prev).1.lightAt c X Y Z = 0 := by
  rw [flood_stage]
  split_ifs with hq
  · exact ⟨hv, hval⟩
  · constructor
    · show (flood_light fuel prev.1 queue color registry config (some mn)
        (some shape)).1.get_voxel = V
      rw [flood_light, flood_loop_get_voxel, hv]
    · show (flood_light fuel prev.1 queue color registry config (some mn)
        (some shape)).1.lightAt c X Y Z = 0
      rw [flood_light, flood_loop_opaque_cell registry config color (some mn) (some shape)
        fuel prev.1 queue c X Y Z (by rw [hv]; exact hop), hval]

/-- C2 counterexample: the claim quantifies over every registry and initial
light state, but `propagate` runs the emissive branch regardless of opacity
and never clears pre-existing light on opaque cells.  With block id 1 opaque
yet flagged `is_light` with red level 5, and a stale initial sun level 3 at
the same cell, `propagate` completes and returns that cell with red 5 and
sun 3, not 0. -/
theorem propagate_opaque_cex :
    ((propagate 50 spaceB (0, 0, 0) (0, 0) (1, 1, 1) regLamp cfgB).map
      (fun r => (r.2.1.lightAt LightColor.Red 0 0 0,
        r.2.1.lightAt LightColor.Sunlight 0 0 0, r.2.2))) = some (5, 3, true) := by
  decide

/-- C2 amended: after `propagate` completes, every opaque cell of the region
that the sweep does not itself inject light into keeps a dark channel dark:
if the cell's block is opaque, the channel is not emitted by the block
(which rules out the sun channel always, and a color channel unless the
block has `is_light` with a positive level for it), and the cell's initial
level on the channel is 0, then its final level on that channel is 0. -/
theorem propagate_opaque_dark (fuel : Nat) (space : Space) (mn : Int × Int × Int)
    (center : Int × Int) (shape : Nat × Nat × Nat) (registry : Registry)
    (config : WorldConfig) (c : LightColor) (X Y Z : Int)
    (_hin : mn.1 ≤ X ∧ X < mn.1 + (shape.1 : Int) ∧ 0 ≤ Y ∧
      Y < (config.max_height : Int) ∧ mn.2.2 ≤ Z ∧ Z < mn.2.2 + (shape.2.2 : Int))
    (hop : ¬ (registry.get_block_by_id (space.get_voxel X Y Z)).is_transparent = true)
    (hem : emits (registry.get_block_by_id (space.get_voxel X Y Z)) c = false)
    (hinit : space.lightAt c X Y Z = 0) :
    ∀ r, propagate fuel space mn center shape registry config = some r →
      r.2.1.lightAt c X Y Z = 0 := by
  intro r hr
  rw [propagate] at hr
  rcases Option.bind_eq_some.mp hr with ⟨sb, hsb, hlv⟩
  rcases Option.map_eq_some'.mp hlv with ⟨lv, hgl, hr'⟩
  subst hr'
  show sb.1.lightAt c X Y Z = 0
  rw [propagate_floods] at hsb
  rcases Option.map_eq_some'.mp hsb with ⟨st, hsw, hsb'⟩
  rw [propagate_sweep] at hsw
  obtain ⟨hvox, hpres⟩ := sweep_rows_preserve_channel registry config mn.1 mn.2.2
    shape.1 shape.2.2 c X Y Z (sweep_row_list config.max_height)
    ⟨List.replicate (shape.1 * shape.2.2) config.max_light_level, space, [], [], [], []⟩
    st hsw hop hem
  have hst0 : st.space.lightAt c X Y Z = 0 := by rw [hpres]; exact hinit
  subst hsb'
  obtain ⟨hv1, hl1⟩ := flood_stage_opaque_cell fuel registry config mn shape LightColor.Red
    st.red_queue (st.space, true) space.get_voxel c X Y Z hvox hop hst0
  obtain ⟨hv2, hl2⟩ := flood_stage_opaque_cell fuel registry config mn shape LightColor.Green
    st.green_queue _ space.get_voxel c X Y Z hv1 hop hl1
  obtain ⟨hv3, hl3⟩ := flood_stage_opaque_cell fuel registry config mn shape LightColor.Blue
    st.blue_queue _ space.get_voxel c X Y Z hv2 hop hl2
  exact (flood_stage_opaque_cell fuel registry config mn shape LightColor.Sunlight
    st.sun_queue _ space.get_voxel c X Y Z hv3 hop hl3).2

/-- Witness for the amended C2 at a concrete input: a region whose single
cell is opaque non-emissive stone, starting dark; after `propagate`, the
cell is still dark on the red channel. -/
theorem propagate_opaque_dark_witness :
    ((propagate 20 spaceC (0, 0, 1) (0, 0) (1, 1, 1) regStone cfgC).map
      (fun r => r.2.1.lightAt LightColor.Red 0 1 1)) = some 0 := by
  have h := propagate_opaque_dark 20 spaceC (0, 0, 1) (0, 0) (1, 1, 1) regStone cfgC
    LightColor.Red 0 1 1 (by decide) (by decide) (by decide) (by decide)
  have hs : (propagate 20 spaceC (0, 0, 1) (0, 0) (1, 1, 1) regStone cfgC).isSome =
      true := by decide
  rcases hp : propagate 20 spaceC (0, 0, 1) (0, 0) (1, 1, 1) regStone cfgC with _ | r
  · rw [hp] at hs; simp at hs
  · rw [Option.map_some', h r hp]

/-! Arithmetic of the mask index under a square extent, and splitting of the
loop ranges. -/

lemma mask_index_lt (s x z : Nat) (hx : x < s) (hz : z < s) : mask_index x z s < s * s := by
  unfold mask_index
  calc x + z * s < s + z * s := by omega
  _ = (z + 1) * s := by ring
  _ ≤ s * s := Nat.mul_le_mul_right s (by omega)

lemma mask_index_inj (s x z x' z' : Nat) (hx : x < s) (hx' : x' < s)
    (h : mask_index x z s = mask_index x' z' s) : x = x' ∧ z = z' := by
  unfold mask_index at h
  have hmx : (x + z * s) % s = x := by
    rw [Nat.add_mul_mod_self_right, Nat.mod_eq_of_lt hx]
  have hmx' : (x' + z' * s) % s = x' := by
    rw [Nat.add_mul_mod_self_right, Nat.mod_eq_of_lt hx']
  have hxx : x = x' := by rw [← hmx, ← hmx', h]
  refine ⟨hxx, ?_⟩
  subst hxx
  have hs : 0 < s := by omega
  have hz' : z * s = z' * s := by omega
  exact Nat.eq_of_mul_eq_mul_right hs hz'

lemma range_split (n k : Nat) (h : k < n) :
    List.range n = List.range k ++ k :: List.range' (k + 1) (n - k - 1) := by
  rw [List.range_eq_range', List.range_eq_range']
  have h1 : n = (n - k) + k := by omega
  rw [h1, ← List.range'_append_1 0 k (n - k)]
  congr 1
  have h2 : n - k = (n - k - 1) + 1 := by omega
  rw [h2, List.range'_succ]
  simp

lemma sweep_zs_append (registry : Registry) (config : WorldConfig) (sx sz : Int)
    (s0 s2 : Nat) (y : Int) (x : Nat) (l1 l2 : List Nat) (st : SweepState) :
    sweep_zs registry config sx sz s0 s2 y x (l1 ++ l2) st =
      (sweep_zs registry config sx sz s0 s2 y x l1 st).bind
        (sweep_zs registry config sx sz s0 s2 y x l2) := by
  induction l1 generalizing st with
  | nil => simp [sweep_zs]
  | cons z0 zs ih =>
    rw [List.cons_append, sweep_zs, sweep_zs]
    cases sweep_cell registry config sx sz s0 s2 y x z0 st with
    | none => simp
    | some stm => simp only [Option.some_bind]; exact ih stm

lemma sweep_xs_append (registry : Registry) (config : WorldConfig) (sx sz : Int)
    (s0 s2 : Nat) (y : Int) (l1 l2 : List Nat) (st : SweepState) :
    sweep_xs registry config sx sz s0 s2 y (l1 ++ l2) st =
      (sweep_xs registry config sx sz s0 s2 y l1 st).bind
        (sweep_xs registry config sx sz s0 s2 y l2) := by
  induction l1 generalizing st with
  | nil => simp [sweep_xs]
  | cons x0 xs ih =>
    rw [List.cons_append, sweep_xs, sweep_xs]
    cases sweep_zs registry config sx sz s0 s2 y x0 (List.range s2) st with
    | none => simp
    | some stm => simp only [Option.some_bind]; exact ih stm

lemma sweep_rows_append (registry : Registry) (config : WorldConfig) (sx sz : Int)
    (s0 s2 : Nat) (l1 l2 : List Int) (st : SweepState) :
    sweep_rows registry config sx sz s0 s2 (l1 ++ l2) st =
      (sweep_rows registry config sx sz s0 s2 l1 st).bind
        (sweep_rows registry config sx sz s0 s2 l2) := by
  induction l1 generalizing st with
  | nil => simp [sweep_rows]
  | cons y0 ys ih =>
    rw [List.cons_append, sweep_rows, sweep_rows]
    cases sweep_xs registry config sx sz s0 s2 y0 (List.range s0) st with
    | none => simp
    | some stm => simp only [Option.some_bind]; exact ih stm

/-! Frame lifts: cells other than a fixed target cell never change its
light, and the sun queue only ever gains seeds at level
`max_light_level - 1`. -/

lemma sweep_zs_other_cells (registry : Registry) (config : WorldConfig) (sx sz : Int)
    (s0 s2 : Nat) (y0 : Int) (x0 : Nat) (c : LightColor) (TX TY TZ : Int) :
    ∀ (zs : List Nat) (st st' : SweepState),
    sweep_zs registry config sx sz s0 s2 y0 x0 zs st = some st' →
    (∀ z0 ∈ zs, ¬ (TX = (x0 : Int) + sx ∧ TY = y0 ∧ TZ = (z0 : Int) + sz)) →
    st'.space.lightAt c TX TY TZ = st.space.lightAt c TX TY TZ ∧
    st'.space.get_voxel = st.space.get_voxel := by
  intro zs
  induction zs with
  | nil =>
    intro st st' h _
    obtain rfl := Option.some.inj h
    exact ⟨rfl, rfl⟩
  | cons z0 zs ih =>
    intro st st' h hne
    rw [sweep_zs] at h
    rcases Option.bind_eq_some.mp h with ⟨stm, hcell, hrest⟩
    obtain ⟨hvox, _, _, _, _, hother⟩ :=
      sweep_cell_frame registry config sx sz s0 s2 y0 x0 z0 st stm hcell
    obtain ⟨hl2, hv2⟩ := ih stm st' hrest (fun z hz => hne z (List.mem_cons_of_mem z0 hz))
    refine ⟨?_, by rw [hv2, hvox]⟩
    rw [hl2, hother c TX TY TZ (hne z0 (List.mem_cons_self z0 zs))]

lemma sweep_xs_other_cells (registry : Registry) (config : WorldConfig) (sx sz : Int)
    (s0 s2 : Nat) (y0 : Int) (c : LightColor) (TX TY TZ : Int) :
    ∀ (xs : List Nat) (st st' : SweepState),
    sweep_xs registry config sx sz s0 s2 y0 xs st = some st' →
    (∀ x0 ∈ xs, ∀ z0 ∈ List.range s2,
      ¬ (TX = (x0 : Int) + sx ∧ TY = y0 ∧ TZ = (z0 : Int) + sz)) →
    st'.space.lightAt c TX TY TZ = st.space.lightAt c TX TY TZ ∧
    st'.space.get_voxel = st.space.get_voxel := by
  intro xs
  induction xs with
  | nil =>
    intro st st' h _
    obtain rfl := Option.some.inj h
    exact ⟨rfl, rfl⟩
  | cons x0 xs ih =>
    intro st st' h hne
    rw [sweep_xs] at h
    rcases Option.bind_eq_some.mp h with ⟨stm, hz, hrest⟩
    obtain ⟨hl1, hv1⟩ := sweep_zs_other_cells registry config sx sz s0 s2 y0 x0 c
      TX TY TZ (List.range s2) st stm hz (hne x0 (List.mem_cons_self x0 xs))
    obtain ⟨hl2, hv2⟩ := ih stm st' hrest (fun x hx => hne x (List.mem_cons_of_mem x0 hx))
    exact ⟨by rw [hl2, hl1], by rw [hv2, hv1]⟩

lemma sweep_rows_other_cells (registry : Registry) (config : WorldConfig) (sx sz : Int)
    (s0 s2 : Nat) (c : LightColor) (TX TY TZ : Int) :
    ∀ (ys : List Int) (st st' : SweepState),
    sweep_rows registry config sx sz s0 s2 ys st = some st' →
    (∀ y0 ∈ ys, ¬ TY = y0) →
    st'.space.lightAt c TX TY TZ = st.space.lightAt c TX TY TZ ∧
    st'.space.get_voxel = st.space.get_voxel := by
  intro ys
  induction ys with
  | nil =>
    intro st st' h _
    obtain rfl := Option.some.inj h
    exact ⟨rfl, rfl⟩
  | cons y0 ys ih =>
    intro st st' h hne
    rw [sweep_rows] at h
    rcases Option.bind_eq_some.mp h with ⟨stm, hx, hrest⟩
    obtain ⟨hl1, hv1⟩ := sweep_xs_other_cells registry config sx sz s0 s2 y0 c
      TX TY TZ (List.range s0) st stm hx
      (fun _ _ _ _ hc => (hne y0 (List.mem_cons_self y0 ys)) hc.2.1)
    obtain ⟨hl2, hv2⟩ := ih stm st' hrest (fun yy hy => hne yy (List.mem_cons_of_mem y0 hy))
    exact ⟨by rw [hl2, hl1], by rw [hv2, hv1]⟩

lemma sweep_zs_sun_queue (registry : Registry) (config : WorldConfig) (sx sz : Int)
    (s0 s2 : Nat) (y0 : Int) (x0 : Nat) :
    ∀ (zs : List Nat) (st st' : SweepState),
    sweep_zs registry config sx sz s0 s2 y0 x0 zs st = some st' →
    ∀ n ∈ st'.sun_queue,
      n ∈ st.sun_queue ∨ n.level = u32_sub_one config.max_light_level := by
  intro zs
  induction zs with
  | nil =>
    intro st st' h n hn
    obtain rfl := Option.some.inj h
    exact Or.inl hn
  | cons z0 zs ih =>
    intro st st' h n hn
    rw [sweep_zs] at h
    rcases Option.bind_eq_some.mp h with ⟨stm, hcell, hrest⟩
    rcases ih stm st' hrest n hn with hm | hm
    · rcases (sweep_cell_frame registry config sx sz s0 s2 y0 x0 z0 st stm
        hcell).2.2.2.2.1 n hm with hm2 | hm2
      · exact Or.inl hm2
      · exact Or.inr hm2
    · exact Or.inr hm

lemma sweep_xs_sun_queue (registry : Registry) (config : WorldConfig) (sx sz : Int)
    (s0 s2 : Nat) (y0 : Int) :
    ∀ (xs : List Nat) (st st' : SweepState),
    sweep_xs registry config sx sz s0 s2 y0 xs st = some st' →
    ∀ n ∈ st'.sun_queue,
      n ∈ st.sun_queue ∨ n.level = u32_sub_one config.max_light_level := by
  intro xs
  induction xs with
  | nil =>
    intro st st' h n hn
    obtain rfl := Option.some.inj h
    exact Or.inl hn
  | cons x0 xs ih =>
    intro st st' h n hn
    rw [sweep_xs] at h
    rcases Option.bind_eq_some.mp h with ⟨stm, hz, hrest⟩
    rcases ih stm st' hrest n hn with hm | hm
    · exact sweep_zs_sun_queue registry config sx sz s0 s2 y0 x0 (List.range s2)
        st stm hz n hm
    · exact Or.inr hm

lemma sweep_rows_sun_queue (registry : Registry) (config : WorldConfig) (sx sz : Int)
    (s0 s2 : Nat) :
    ∀ (ys : List Int) (st st' : SweepState),
    sweep_rows registry config sx sz s0 s2 ys st = some st' →
    ∀ n ∈ st'.sun_queue,
      n ∈ st.sun_queue ∨ n.level = u32_sub_one config.max_light_level := by
  intro ys
  induction ys with
  | nil =>
    intro st st' h n hn
    obtain rfl := Option.some.inj h
    exact Or.inl hn
  | cons y0 ys ih =>
    intro st st' h n hn
    rw [sweep_rows] at h
    rcases Option.bind_eq_some.mp h with ⟨stm, hx, hrest⟩
    rcases ih stm st' hrest n hn with hm | hm
    · exact sweep_xs_sun_queue registry config sx sz s0 s2 y0 (List.range s0)
        st stm hx n hm
    · exact Or.inr hm

/-! Tracking the mask entry of a fixed sky column through the sweep: under a
square extent the entry is written only by its own column, and only at
opaque cells. -/

lemma sweep_cell_maskT (registry : Registry) (config : WorldConfig) (sx sz : Int)
    (s0 s2 rx rz : Nat) (LVal : Nat) (V : Int → Int → Int → Nat) (y0 : Int)
    (x0 z0 : Nat) (st st' : SweepState)
    (hsq : s0 = s2) (hrx : rx < s0) (hx0 : x0 < s0)
    (h : sweep_cell registry config sx sz s0 s2 y0 x0 z0 st = some st')
    (hv : st.space.get_voxel = V)
    (hmask : mask_get st.mask (mask_index rx rz s2) = some LVal)
    (htr : x0 = rx → z0 = rz → (registry.get_block_by_id
      (V ((rx : Int) + sx) y0 ((rz : Int) + sz))).is_transparent = true) :
    st'.space.get_voxel = V ∧ mask_get st'.mask (mask_index rx rz s2) = some LVal := by
  have hvox := (sweep_cell_frame registry config sx sz s0 s2 y0 x0 z0 st st' h).1
  by_cases hcol : x0 = rx ∧ z0 = rz
  · obtain ⟨h1, h2⟩ := hcol
    subst h1; subst h2
    have ht := htr rfl rfl
    rw [← hv] at ht
    have hm := sweep_cell_mask_of_transparent registry config sx sz s0 s2 y0 x0 z0
      st st' h ht
    exact ⟨by rw [hvox, hv], by rw [hm]; exact hmask⟩
  · have hne : ¬ mask_index rx rz s2 = mask_index x0 z0 s2 := by
      intro he
      obtain ⟨he1, he2⟩ := mask_index_inj s2 x0 z0 rx rz (hsq ▸ hx0) (hsq ▸ hrx) he.symm
      exact hcol ⟨he1, he2⟩
    have hpm := (sweep_cell_frame registry config sx sz s0 s2 y0 x0 z0 st st' h).2.2.2.1
      (mask_index rx rz s2) hne
    exact ⟨by rw [hvox, hv], by rw [hpm]; exact hmask⟩

lemma sweep_zs_maskT (registry : Registry) (config : WorldConfig) (sx sz : Int)
    (s0 s2 rx rz : Nat) (LVal : Nat) (V : Int → Int → Int → Nat) (y0 : Int) (x0 : Nat)
    (hsq : s0 = s2) (hrx : rx < s0) (hx0 : x0 < s0) :
    ∀ (zs : List Nat) (st st' : SweepState),
    sweep_zs registry config sx sz s0 s2 y0 x0 zs st = some st' →
    st.space.get_voxel = V →
    mask_get st.mask (mask_index rx rz s2) = some LVal →
    (∀ z0 ∈ zs, x0 = rx → z0 = rz → (registry.get_block_by_id
      (V ((rx : Int) + sx) y0 ((rz : Int) + sz))).is_transparent = true) →
    st'.space.get_voxel = V ∧ mask_get st'.mask (mask_index rx rz s2) = some LVal := by
  intro zs
  induction zs with
  | nil =>
    intro st st' h hv hmask _
    obtain rfl := Option.some.inj h
    exact ⟨hv, hmask⟩
  | cons z0 zs ih =>
    intro st st' h hv hmask htr
    rw [sweep_zs] at h
    rcases Option.bind_eq_some.mp h with ⟨stm, hcell, hrest⟩
    obtain ⟨hv1, hm1⟩ := sweep_cell_maskT registry config sx sz s0 s2 rx rz LVal V y0
      x0 z0 st stm hsq hrx hx0 hcell hv hmask
      (htr z0 (List.mem_cons_self z0 zs))
    exact ih stm st' hrest hv1 hm1 (fun z hz => htr z (List.mem_cons_of_mem z0 hz))

lemma sweep_xs_maskT (registry : Registry) (config : WorldConfig) (sx sz : Int)
    (s0 s2 rx rz : Nat) (LVal : Nat) (V : Int → Int → Int → Nat) (y0 : Int)
    (hsq : s0 = s2) (hrx : rx < s0) :
    ∀ (xs : List Nat) (st st' : SweepState),
    (∀ x0 ∈ xs, x0 < s0) →
    sweep_xs registry config sx sz s0 s2 y0 xs st = some st' →
    st.space.get_voxel = V →
    mask_get st.mask (mask_index rx rz s2) = some LVal →
    (∀ x0 ∈ xs, x0 = rx → (registry.get_block_by_id
      (V ((rx : Int) + sx) y0 ((rz : Int) + sz))).is_transparent = true) →
    st'.space.get_voxel = V ∧ mask_get st'.mask (mask_index rx rz s2) = some LVal := by
  intro xs
  induction xs with
  | nil =>
    intro st st' _ h hv hmask _
    obtain rfl := Option.some.inj h
    exact ⟨hv, hmask⟩
  | cons x0 xs ih =>
    intro st st' hbound h hv hmask htr
    rw [sweep_xs] at h
    rcases Option.bind_eq_some.mp h with ⟨stm, hz, hrest⟩
    obtain ⟨hv1, hm1⟩ := sweep_zs_maskT registry config sx sz s0 s2 rx rz LVal V y0 x0
      hsq hrx (hbound x0 (List.mem_cons_self x0 xs)) (List.range s2) st stm hz hv hmask
      (fun _ _ hx0 _ => htr x0 (List.mem_cons_self x0 xs) hx0)
    exact ih stm st' (fun x hx => hbound x (List.mem_cons_of_mem x0 hx)) hrest hv1 hm1
      (fun x hx => htr x (List.mem_cons_of_mem x0 hx))

lemma sweep_rows_maskT (registry : Registry) (config : WorldConfig) (sx sz : Int)
    (s0 s2 rx rz : Nat) (LVal : Nat) (V : Int → Int → Int → Nat)
    (hsq : s0 = s2) (hrx : rx < s0) :
    ∀ (ys : List Int) (st st' : SweepState),
    sweep_rows registry config sx sz s0 s2 ys st = some st' →
    st.space.get_voxel = V →
    mask_get st.mask (mask_index rx rz s2) = some LVal →
    (∀ y0 ∈ ys, (registry.get_block_by_id
      (V ((rx : Int) + sx) y0 ((rz : Int) + sz))).is_transparent = true) →
    st'.space.get_voxel = V ∧ mask_get st'.mask (mask_index rx rz s2) = some LVal := by
  intro ys
  induction ys with
  | nil =>
    intro st st' h hv hmask _
    obtain rfl := Option.some.inj h
    exact ⟨hv, hmask⟩
  | cons y0 ys ih =>
    intro st st' h hv hmask htr
    rw [sweep_rows] at h
    rcases Option.bind_eq_some.mp h with ⟨stm, hx, hrest⟩
    obtain ⟨hv1, hm1⟩ := sweep_xs_maskT registry config sx sz s0 s2 rx rz LVal V y0
      hsq hrx (List.range s0) st stm (fun x hx0 => List.mem_range.mp hx0) hx hv hmask
      (fun _ _ _ => htr y0 (List.mem_cons_self y0 ys))
    exact ih stm st' hrest hv1 hm1 (fun yy hy => htr yy (List.mem_cons_of_mem y0 hy))

/-- Processing the row that contains the target sky cell: the mask entry of
the target column still carries `LVal`, every cell of the row before the
target leaves that entry alone, the target cell itself (transparent, mask
not zero) writes `LVal` to its sun channel, and every later cell of the row
leaves the target cell alone. -/
lemma sweep_row_at_target (registry : Registry) (config : WorldConfig) (sx sz : Int)
    (s0 s2 rx rz : Nat) (LVal : Nat) (V : Int → Int → Int → Nat) (yT : Int)
    (st st' : SweepState)
    (hsq : s0 = s2) (hrx : rx < s0) (hrz : rz < s2) (hL : ¬ LVal = 0)
    (h : sweep_xs registry config sx sz s0 s2 yT (List.range s0) st = some st')
    (hv : st.space.get_voxel = V)
    (hmask : mask_get st.mask (mask_index rx rz s2) = some LVal)
    (ht : (registry.get_block_by_id
      (V ((rx : Int) + sx) yT ((rz : Int) + sz))).is_transparent = true) :
    st'.space.lightAt LightColor.Sunlight ((rx : Int) + sx) yT ((rz : Int) + sz) = LVal ∧
    st'.space.get_voxel = V := by
  rw [range_split s0 rx hrx, sweep_xs_append] at h
  rcases Option.bind_eq_some.mp h with ⟨stA, hA, hBC⟩
  rw [sweep_xs] at hBC
  rcases Option.bind_eq_some.mp hBC with ⟨stB, hB, hC⟩
  obtain ⟨hvA, hmA⟩ := sweep_xs_maskT registry config sx sz s0 s2 rx rz LVal V yT hsq hrx
    (List.range rx) st stA
    (fun x hx => by have := List.mem_range.mp hx; omega) hA hv hmask
    (fun x hx hxe => absurd hxe (by have := List.mem_range.mp hx; omega))
  rw [range_split s2 rz hrz, sweep_zs_append] at hB
  rcases Option.bind_eq_some.mp hB with ⟨stD, hD, hE⟩
  obtain ⟨hvD, hmD⟩ := sweep_zs_maskT registry config sx sz s0 s2 rx rz LVal V yT rx
    hsq hrx hrx (List.range rz) stA stD hD hvA hmA
    (fun z hz _ hze => absurd hze (by have := List.mem_range.mp hz; omega))
  rw [sweep_zs] at hE
  rcases Option.bind_eq_some.mp hE with ⟨stF, hcell, hzs2⟩
  have htD : (registry.get_block_by_id
      (stD.space.get_voxel ((rx : Int) + sx) yT ((rz : Int) + sz))).is_transparent =
        true := by rw [hvD]; exact ht
  have hsunF := sweep_cell_sun_write registry config sx sz s0 s2 yT rx rz stD stF LVal
    hcell htD hmD hL
  have hvF : stF.space.get_voxel = V := by
    rw [(sweep_cell_frame registry config sx sz s0 s2 yT rx rz stD stF hcell).1, hvD]
  obtain ⟨hlB, hvB⟩ := sweep_zs_other_cells registry config sx sz s0 s2 yT rx
    LightColor.Sunlight ((rx : Int) + sx) yT ((rz : Int) + sz)
    (List.range' (rz + 1) (s2 - rz - 1)) stF stB hzs2
    (fun z0 hz0 hc => by
      obtain ⟨-, -, h3⟩ := hc
      have hm := List.mem_range'_1.mp hz0
      omega)
  obtain ⟨hlC, hvC⟩ := sweep_xs_other_cells registry config sx sz s0 s2 yT
    LightColor.Sunlight ((rx : Int) + sx) yT ((rz : Int) + sz)
    (List.range' (rx + 1) (s0 - rx - 1)) stB st' hC
    (fun x0 hx0 z0 _ hc => by
      obtain ⟨h1, -, -⟩ := hc
      have hm := List.mem_range'_1.mp hx0
      omega)
  refine ⟨?_, by rw [hvC, hvB, hvF]⟩
  rw [hlC, hlB, hsunF]

lemma sweep_row_list_split (H yn : Nat) (hy : yn < H) :
    sweep_row_list H =
      ((List.range' (yn + 1) (H - yn - 1)).reverse.map (fun (n : Nat) => (n : Int))) ++
        (yn : Int) ::
          ((List.range yn).reverse.map (fun (n : Nat) => (n : Int))) := by
  unfold sweep_row_list
  rw [range_split H yn hy, List.reverse_append, List.reverse_cons, List.append_assoc,
    List.singleton_append, List.map_append, List.map_cons]

lemma lightAt_sun_eq (s : Space) (X Y Z : Int) :
    s.lightAt LightColor.Sunlight X Y Z = s.sun X Y Z := by
  rw [Space.lightAt, if_pos rfl]

lemma u32_sub_one_of_pos (n : Nat) (h : 1 ≤ n) : u32_sub_one n = n - 1 := by
  rw [u32_sub_one, if_neg (by omega)]

lemma flood_stage_sun_of_ne (fuel : Nat) (registry : Registry) (config : WorldConfig)
    (mn : Int × Int × Int) (shape : Nat × Nat × Nat) (color : LightColor)
    (queue : List LightNode) (prev : Space × Bool)
    (hc : ¬ color = LightColor.Sunlight) :
    (flood_stage fuel registry config mn shape color queue prev).1.sun = prev.1.sun := by
  rw [flood_stage]
  split_ifs with hq
  · rfl
  · show (flood_light fuel prev.1 queue color registry config (some mn)
      (some shape)).1.sun = prev.1.sun
    rw [flood_light]
    exact flood_loop_sun_of_ne registry config color (some mn) (some shape) fuel hc
      prev.1 queue

lemma flood_stage_preserve_ge (B : Nat) (fuel : Nat) (registry : Registry)
    (config : WorldConfig) (mn : Int × Int × Int) (shape : Nat × Nat × Nat)
    (color : LightColor) (queue : List LightNode) (prev : Space × Bool) (X Y Z : Int)
    (hq : ∀ n ∈ queue, n.level ≤ B)
    (hge : B ≤ prev.1.lightAt color X Y Z) :
    (flood_stage fuel registry config mn shape color queue prev).1.lightAt color X Y Z =
      prev.1.lightAt color X Y Z := by
  rw [flood_stage]
  split_ifs with he
  · rfl
  · show (flood_light fuel prev.1 queue color registry config (some mn)
      (some shape)).1.lightAt color X Y Z = prev.1.lightAt color X Y Z
    rw [flood_light]
    exact flood_loop_preserve_ge B registry config color (some mn) (some shape) fuel
      prev.1 queue X Y Z hq hge

/-- C3 counterexample, two independent failures of the claim as stated.
First conjunct: with extent 3 by 2 (so `shape.0` differs from `shape.2`),
the mask stride aliases columns (2, 0) and (0, 1); an opaque block at
(0, 1, 1) then shadows the entirely transparent column (2, 0), whose top
cell ends with sun 2 instead of `max_light_level = 3`, even though the run
completes.  Second conjunct: with `max_light_level = 0`, the seeding
subtraction wraps to 4294967295 and an all-air 2 by 2 region ends with sun
4294967295 at a sky-exposed cell instead of `max_light_level = 0`. -/
theorem propagate_sky_column_cex :
    ((propagate 100 spaceC (0, 0, 0) (0, 0) (3, 2, 2) regStone cfgC).map
      (fun r => (r.2.1.lightAt LightColor.Sunlight 2 1 0, r.2.2))) = some (2, true) ∧
    ((propagate 100 spaceZero (0, 0, 0) (0, 0) (2, 1, 2) regAir cfgD).map
      (fun r => (r.2.1.lightAt LightColor.Sunlight 0 0 0, r.2.2))) =
        some (4294967295, true) := by
  constructor
  · decide
  · decide

/-- C3 amended: under the additional hypotheses that the extent is square
(`shape.0 = shape.2`, so the mask stride aliases no columns) and that
`max_light_level` is at least 1 (so the seeding subtraction cannot wrap),
every transparent region cell whose full column above it (up to
`max_height`) is transparent ends with sun equal to `max_light_level` after
`propagate` completes. -/
theorem propagate_sky_column_full_sun (fuel : Nat) (space : Space) (mn : Int × Int × Int)
    (center : Int × Int) (shape : Nat × Nat × Nat) (registry : Registry)
    (config : WorldConfig) (rx rz yn : Nat)
    (hsq : shape.1 = shape.2.2)
    (hL : 1 ≤ config.max_light_level)
    (hrx : rx < shape.1) (hrz : rz < shape.2.2) (hy : yn < config.max_height)
    (ht : (registry.get_block_by_id (space.get_voxel ((rx : Int) + mn.1) (yn : Int)
      ((rz : Int) + mn.2.2))).is_transparent = true)
    (habove : ∀ y' : Nat, yn < y' → y' < config.max_height →
      (registry.get_block_by_id (space.get_voxel ((rx : Int) + mn.1) (y' : Int)
        ((rz : Int) + mn.2.2))).is_transparent = true) :
    ∀ r, propagate fuel space mn center shape registry config = some r →
      r.2.1.lightAt LightColor.Sunlight ((rx : Int) + mn.1) (yn : Int)
        ((rz : Int) + mn.2.2) = config.max_light_level := by
  intro r hr
  rw [propagate] at hr
  rcases Option.bind_eq_some.mp hr with ⟨sb, hsb, hlv⟩
  rcases Option.map_eq_some'.mp hlv with ⟨lv, hgl, hr'⟩
  subst hr'
  show sb.1.lightAt LightColor.Sunlight ((rx : Int) + mn.1) (yn : Int)
    ((rz : Int) + mn.2.2) = config.max_light_level
  rw [propagate_floods] at hsb
  rcases Option.map_eq_some'.mp hsb with ⟨st, hsw, hsb'⟩
  rw [propagate_sweep, sweep_row_list_split config.max_height yn hy,
    sweep_rows_append] at hsw
  rcases Option.bind_eq_some.mp hsw with ⟨stA, hA, hBC⟩
  rw [sweep_rows] at hBC
  rcases Option.bind_eq_some.mp hBC with ⟨stB, hRow, hLower⟩
  have hmask0 : mask_get
      (List.replicate (shape.1 * shape.2.2) config.max_light_level : List Nat)
      (mask_index rx rz shape.2.2) = some config.max_light_level := by
    rw [mask_get, List.get?_eq_getElem?, List.getElem?_replicate,
      if_pos (by rw [hsq]; exact mask_index_lt shape.2.2 rx rz (hsq ▸ hrx) hrz)]
  obtain ⟨hvA, hmA⟩ := sweep_rows_maskT registry config mn.1 mn.2.2 shape.1 shape.2.2
    rx rz config.max_light_level space.get_voxel hsq hrx
    ((List.range' (yn + 1) (config.max_height - yn - 1)).reverse.map (fun (n : Nat) => (n : Int)))
    ⟨List.replicate (shape.1 * shape.2.2) config.max_light_level, space, [], [], [], []⟩
    stA hA rfl hmask0
    (fun y0 hy0 => by
      rcases List.mem_map.mp hy0 with ⟨n, hn, hcast⟩
      rw [List.mem_reverse] at hn
      have hb := List.mem_range'_1.mp hn
      subst hcast
      exact habove n (by omega) (by omega))
  obtain ⟨hsunB, hvB⟩ := sweep_row_at_target registry config mn.1 mn.2.2 shape.1
    shape.2.2 rx rz config.max_light_level space.get_voxel (yn : Int) stA stB hsq hrx hrz
    (by omega) hRow hvA hmA ht
  obtain ⟨hsunSt, _⟩ := sweep_rows_other_cells registry config mn.1 mn.2.2 shape.1
    shape.2.2 LightColor.Sunlight ((rx : Int) + mn.1) (yn : Int) ((rz : Int) + mn.2.2)
    ((List.range yn).reverse.map (fun (n : Nat) => (n : Int))) stB st hLower
    (fun y0 hy0 => by
      rcases List.mem_map.mp hy0 with ⟨n, hn, hcast⟩
      rw [List.mem_reverse] at hn
      have hb := List.mem_range.mp hn
      subst hcast
      omega)
  have hsun : st.space.lightAt LightColor.Sunlight ((rx : Int) + mn.1) (yn : Int)
      ((rz : Int) + mn.2.2) = config.max_light_level := by rw [hsunSt, hsunB]
  have hsq2 : ∀ n ∈ st.sun_queue, n.level ≤ config.max_light_level := by
    intro n hn
    have hlev : n.level = u32_sub_one config.max_light_level := by
      rcases sweep_rows_sun_queue registry config mn.1 mn.2.2 shape.1 shape.2.2 _ stB st
        hLower n hn with hm | hm
      · rcases sweep_xs_sun_queue registry config mn.1 mn.2.2 shape.1 shape.2.2 _ _ stA
          stB hRow n hm with hm2 | hm2
        · rcases sweep_rows_sun_queue registry config mn.1 mn.2.2 shape.1 shape.2.2 _ _
            stA hA n hm2 with hm3 | hm3
          · simp at hm3
          · exact hm3
        · exact hm2
      · exact hm
    rw [hlev, u32_sub_one_of_pos config.max_light_level hL]
    omega
  subst hsb'
  have h3 : (flood_stage fuel registry config mn shape LightColor.Blue st.blue_queue
      (flood_stage fuel registry config mn shape LightColor.Green st.green_queue
        (flood_stage fuel registry config mn shape LightColor.Red st.red_queue
          (st.space, true)))).1.sun = st.space.sun := by
    rw [flood_stage_sun_of_ne _ _ _ _ _ _ _ _ (by decide),
      flood_stage_sun_of_ne _ _ _ _ _ _ _ _ (by decide),
      flood_stage_sun_of_ne _ _ _ _ _ _ _ _ (by decide)]
  have hP3 : (flood_stage fuel registry config mn shape LightColor.Blue st.blue_queue
      (flood_stage fuel registry config mn shape LightColor.Green st.green_queue
        (flood_stage fuel registry config mn shape LightColor.Red st.red_queue
          (st.space, true)))).1.lightAt LightColor.Sunlight ((rx : Int) + mn.1)
      (yn : Int) ((rz : Int) + mn.2.2) = config.max_light_level := by
    rw [lightAt_sun_eq, h3, ← lightAt_sun_eq, hsun]
  rw [flood_stage_preserve_ge config.max_light_level fuel registry config mn shape
    LightColor.Sunlight st.sun_queue _ ((rx : Int) + mn.1) (yn : Int)
    ((rz : Int) + mn.2.2) hsq2 hP3.ge, hP3]

/-- Witness for the amended C3 at a concrete input: a 1 by 1 all-air region
of height 1 with `max_light_level = 3`; the single sky-exposed cell ends
with sun 3. -/
theorem propagate_sky_column_full_sun_witness :
    ((propagate 20 spaceZero (0, 0, 0) (0, 0) (1, 1, 1) regAir cfgB).map
      (fun r => r.2.1.lightAt LightColor.Sunlight 0 0 0)) = some 3 := by
  have h := propagate_sky_column_full_sun 20 spaceZero (0, 0, 0) (0, 0) (1, 1, 1) regAir
    cfgB 0 0 0 (by decide) (by decide) (by decide) (by decide) (by decide) (by decide)
    (by intro y' h1 h2; rw [show cfgB.max_height = 1 from rfl] at h2; omega)
  have hs : (propagate 20 spaceZero (0, 0, 0) (0, 0) (1, 1, 1) regAir cfgB).isSome =
      true := by decide
  rcases hp : propagate 20 spaceZero (0, 0, 0) (0, 0) (1, 1, 1) regAir cfgB with _ | r
  · rw [hp] at hs; simp at hs
  · rw [Option.map_some']
    exact congrArg some (h r hp)

/-! Completion of the sweep under a square extent: every mask access is in
bounds, so no access panics. -/

lemma guarded_read_isSome (mask : List Nat) (p : Nat → Bool) (g : Prop) [Decidable g]
    (i : Nat) (h : g → i < mask.length) :
    (if g then (mask_get mask i).map p else some false).isSome = true := by
  split_ifs with hg
  · rw [mask_get, List.get?_eq_get (h hg)]
    rfl
  · rfl

lemma orM_isSome (a : Option Bool) (b : Unit → Option Bool)
    (ha : a.isSome = true) (hb : (b ()).isSome = true) : (orM a b).isSome = true := by
  rcases a with _ | va
  · simp at ha
  · rw [orM, Option.some_bind]
    split_ifs
    · rfl
    · exact hb

lemma seed_cond_isSome (mask : List Nat) (maxL : Nat) (s0 s2 x z : Nat)
    (hsq : s0 = s2) (hx : x < s0) (hz : z < s2) (hlen : mask.length = s0 * s2) :
    (seed_cond mask maxL s0 s2 x z).isSome = true := by
  subst hsq
  have hb : ∀ x' z', x' < s0 → z' < s0 → mask_index x' z' s0 < mask.length := by
    intro x' z' hx' hz'
    rw [hlen]
    exact mask_index_lt s0 x' z' hx' hz'
  rw [seed_cond]
  refine orM_isSome _ _ (guarded_read_isSome _ _ _ _ (fun hg => hb _ _ (by omega) hz)) ?_
  refine orM_isSome _ _ (guarded_read_isSome _ _ _ _ (fun hg => hb _ _ (by omega) hz)) ?_
  refine orM_isSome _ _ (guarded_read_isSome _ _ _ _ (fun hg => hb _ _ hx (by omega))) ?_
  exact guarded_read_isSome _ _ _ _ (fun hg => hb _ _ hx (by omega))

lemma sweep_transparent_isSome (maxL : Nat) (s0 s2 x z : Nat) (wx y wz : Int)
    (st : SweepState) (hsq : s0 = s2) (hx : x < s0) (hz : z < s2)
    (hlen : st.mask.length = s0 * s2) :
    (sweep_transparent maxL s0 s2 x z wx y wz st).isSome = true := by
  rw [sweep_transparent]
  have hidx : mask_index x z s2 < st.mask.length := by
    rw [hlen, hsq]
    exact mask_index_lt s2 x z (hsq ▸ hx) hz
  rw [mask_get, List.get?_eq_get hidx, Option.some_bind]
  split_ifs with h0
  · rcases Option.isSome_iff_exists.mp
      (seed_cond_isSome st.mask maxL s0 s2 x z hsq hx hz hlen) with ⟨sd, hsd⟩
    rw [hsd]
    rfl
  · rfl

lemma sweep_cell_isSome (registry : Registry) (config : WorldConfig) (sx sz : Int)
    (s0 s2 : Nat) (y : Int) (x z : Nat) (st : SweepState)
    (hsq : s0 = s2) (hx : x < s0) (hz : z < s2) (hlen : st.mask.length = s0 * s2) :
    (sweep_cell registry config sx sz s0 s2 y x z st).isSome = true := by
  rw [sweep_cell]
  split_ifs with ht
  · rcases Option.isSome_iff_exists.mp (sweep_transparent_isSome config.max_light_level
      s0 s2 x z ((x : Int) + sx) y ((z : Int) + sz) st hsq hx hz hlen) with ⟨st1, hst1⟩
    rw [hst1]
    rfl
  · have hidx : mask_index x z s2 < st.mask.length := by
      rw [hlen, hsq]
      exact mask_index_lt s2 x z (hsq ▸ hx) hz
    rw [mask_set, if_pos hidx]
    rfl

lemma sweep_zs_isSome (registry : Registry) (config : WorldConfig) (sx sz : Int)
    (s0 s2 : Nat) (y : Int) (x : Nat) (hsq : s0 = s2) (hx : x < s0) :
    ∀ (zs : List Nat), (∀ z0 ∈ zs, z0 < s2) →
    ∀ (st : SweepState), st.mask.length = s0 * s2 →
    ∃ st', sweep_zs registry config sx sz s0 s2 y x zs st = some st' ∧
      st'.mask.length = s0 * s2 := by
  intro zs
  induction zs with
  | nil => intro _ st hlen; exact ⟨st, rfl, hlen⟩
  | cons z0 zs ih =>
    intro hbound st hlen
    rcases Option.isSome_iff_exists.mp (sweep_cell_isSome registry config sx sz s0 s2
      y x z0 st hsq hx (hbound z0 (List.mem_cons_self z0 zs)) hlen) with ⟨stm, hcell⟩
    have hlen2 : stm.mask.length = s0 * s2 := by
      rw [(sweep_cell_frame registry config sx sz s0 s2 y x z0 st stm hcell).2.2.1, hlen]
    rcases ih (fun z hz => hbound z (List.mem_cons_of_mem z0 hz)) stm hlen2 with
      ⟨st', hrest, hlen3⟩
    exact ⟨st', by rw [sweep_zs, hcell, Option.some_bind]; exact hrest, hlen3⟩

lemma sweep_xs_isSome (registry : Registry) (config : WorldConfig) (sx sz : Int)
    (s0 s2 : Nat) (y : Int) (hsq : s0 = s2) :
    ∀ (xs : List Nat), (∀ x0 ∈ xs, x0 < s0) →
    ∀ (st : SweepState), st.mask.length = s0 * s2 →
    ∃ st', sweep_xs registry config sx sz s0 s2 y xs st = some st' ∧
      st'.mask.length = s0 * s2 := by
  intro xs
  induction xs with
  | nil => intro _ st hlen; exact ⟨st, rfl, hlen⟩
  | cons x0 xs ih =>
    intro hbound st hlen
    rcases sweep_zs_isSome registry config sx sz s0 s2 y x0 hsq
      (hbound x0 (List.mem_cons_self x0 xs)) (List.range s2)
      (fun z hz => List.mem_range.mp hz) st hlen with ⟨stm, hz, hlen2⟩
    rcases ih (fun x hx => hbound x (List.mem_cons_of_mem x0 hx)) stm hlen2 with
      ⟨st', hrest, hlen3⟩
    exact ⟨st', by rw [sweep_xs, hz, Option.some_bind]; exact hrest, hlen3⟩

lemma sweep_rows_isSome (registry : Registry) (config : WorldConfig) (sx sz : Int)
    (s0 s2 : Nat) (hsq : s0 = s2) :
    ∀ (ys : List Int) (st : SweepState), st.mask.length = s0 * s2 →
    ∃ st', sweep_rows registry config sx sz s0 s2 ys st = some st' ∧
      st'.mask.length = s0 * s2 := by
  intro ys
  induction ys with
  | nil => intro st hlen; exact ⟨st, rfl, hlen⟩
  | cons y0 ys ih =>
    intro st hlen
    rcases sweep_xs_isSome registry config sx sz s0 s2 y0 hsq (List.range s0)
      (fun x hx => List.mem_range.mp hx) st hlen with ⟨stm, hx, hlen2⟩
    rcases ih stm hlen2 with ⟨st', hrest, hlen3⟩
    exact ⟨st', by rw [sweep_rows, hx, Option.some_bind]; exact hrest, hlen3⟩

/-- C7: under a square extent (`shape.0 = shape.2`) every sun-mask access of
`propagate` is in bounds.  First conjunct: the index `x + z * shape.2` of
the cell access, and the four guarded lateral-neighbor accesses of the
unlit-side seeding step, are all strictly below the mask length
`shape.0 * shape.2`.  Second conjunct: distinct region columns map to
distinct mask indices.  Third conjunct: the whole sweep, whose mask reads
and writes panic (`none`) out of bounds, completes for every input. -/
theorem propagate_mask_index_safe :
    (∀ (s x z : Nat), x < s → z < s →
      mask_index x z s < s * s ∧
      (0 < x → mask_index (x - 1) z s < s * s) ∧
      (x < s - 1 → mask_index (x + 1) z s < s * s) ∧
      (0 < z → mask_index x (z - 1) s < s * s) ∧
      (z < s - 1 → mask_index x (z + 1) s < s * s)) ∧
    (∀ (s x z x' z' : Nat), x < s → x' < s →
      mask_index x z s = mask_index x' z' s → x = x' ∧ z = z') ∧
    (∀ (space : Space) (mn : Int × Int × Int) (shape : Nat × Nat × Nat)
      (registry : Registry) (config : WorldConfig), shape.1 = shape.2.2 →
      (propagate_sweep space mn shape registry config).isSome = true) := by
  refine ⟨?_, ?_, ?_⟩
  · intro s x z hx hz
    exact ⟨mask_index_lt s x z hx hz,
      fun _ => mask_index_lt s (x - 1) z (by omega) hz,
      fun h => mask_index_lt s (x + 1) z (by omega) hz,
      fun _ => mask_index_lt s x (z - 1) hx (by omega),
      fun h => mask_index_lt s x (z + 1) hx (by omega)⟩
  · intro s x z x' z' hx hx' h
    exact mask_index_inj s x z x' z' hx hx' h
  · intro space mn shape registry config hsq
    rcases sweep_rows_isSome registry config mn.1 mn.2.2 shape.1 shape.2.2 hsq
      (sweep_row_list config.max_height)
      ⟨List.replicate (shape.1 * shape.2.2) config.max_light_level, space, [], [], [], []⟩
      (by simp) with ⟨st', hrun, _⟩
    rw [propagate_sweep, hrun]
    rfl

/-- Witness for C7 at a concrete input: the extent 2 by 2 with the cell
(1, 1); the own access and the in-guard lateral accesses are below 4, the
map of columns to indices is injective there, and the sweep of a concrete
square region completes. -/
theorem propagate_mask_index_safe_witness :
    mask_index 1 1 2 < 2 * 2 ∧ (0 < 1 → mask_index 0 1 2 < 2 * 2) ∧
    (1 = 1 ∧ 1 = 1) ∧
    (propagate_sweep spaceZero (0, 0, 0) (2, 1, 2) regAir cfgB).isSome = true :=
  ⟨(propagate_mask_index_safe.1 2 1 1 (by decide) (by decide)).1,
   fun h => (propagate_mask_index_safe.1 2 1 1 (by decide) (by decide)).2.1 h,
   propagate_mask_index_safe.2.1 2 1 1 1 1 (by decide) (by decide) (by decide),
   propagate_mask_index_safe.2.2 spaceZero (0, 0, 0) (2, 1, 2) regAir cfgB (by decide)⟩

end Voxelize
